import Mathlib

/-!
Verification development for the ShearPoint signaling/discovery servers.

The repository contains two server variants:
* `src/server.js` — a WebRTC signaling server keeping `connectedPeers` and
  `deviceInfo` JS `Map`s, a WebSocket message router
  (`handleSignalingMessage`), message forwarding
  (`forwardSignalingMessage`), fan-out (`broadcastPeerUpdate`) and an HTTP
  device-administration surface.  Modelled below in namespace `ServerA`.
* the unnamed variant (`src/unnamed/part_000`, lines 1–496) — a unified
  server with client-keyed registration, heartbeats, a stale-device sweep
  and a UDP LAN discovery beacon.  Modelled below in namespace `ServerB`.

Modelling conventions:
* JS `Map`s are embedded as insertion-ordered association lists
  (`List (String × α)`) with `Map.get` / `Map.set` / `Map.delete`
  counterparts `mapGet` / `mapSet` / `mapDelete`; `Map.set` replaces in
  place, preserving insertion order, exactly as JS does.
* Clocks (`Date.now()`, `new Date().toISOString()`) are an explicit `now`
  argument of type `Nat` (milliseconds); ISO strings are represented by the
  same clock value since the code only ever produces and ships them.
* WebSocket handles are identified by the peer id that owns them in
  `ServerA` (the registry stores one handle per peer) and by a `Nat`
  connection identifier in `ServerB` (where several connections can race on
  one device id); `readyState === WebSocket.OPEN` is a `Bool` field.
* Effects are reified: every handler returns the list of send/close actions
  it performs, in program order, instead of performing I/O.
* Wire fields are modelled at the type the code expects of them
  (`name : Option String`, …); the payload of a forwarded signaling message
  is kept as a raw JSON object (`Obj`) because the router never inspects
  it.
-/

/-! ### Association lists with JS `Map` semantics -/

/-- `Map.get`: first (unique) binding of the key, if any. -/
def mapGet {α : Type} (m : List (String × α)) (k : String) : Option α :=
  match m with
  | [] => none
  | p :: r => if p.1 = k then some p.2 else mapGet r k

/-- `Map.set`: replace the binding in place (JS preserves insertion order on
overwrite) or append a fresh binding at the end. -/
def mapSet {α : Type} (m : List (String × α)) (k : String) (v : α) :
    List (String × α) :=
  match m with
  | [] => [(k, v)]
  | p :: r => if p.1 = k then (k, v) :: r else p :: mapSet r k v

/-- `Map.delete`: drop every binding of the key. -/
def mapDelete {α : Type} (m : List (String × α)) (k : String) :
    List (String × α) :=
  match m with
  | [] => []
  | p :: r => if p.1 = k then mapDelete r k else p :: mapDelete r k

/-- The key list, in insertion order. -/
def mapKeys {α : Type} (m : List (String × α)) : List String :=
  m.map (·.1)

/-- JS `Map`s have unique keys; our lists carry that as an invariant. -/
def keysNodup {α : Type} (m : List (String × α)) : Prop :=
  (mapKeys m).Nodup

instance {α : Type} (m : List (String × α)) : Decidable (keysNodup m) := by
  unfold keysNodup; infer_instance

theorem mapKeys_nil {α : Type} : mapKeys ([] : List (String × α)) = [] :=
  rfl

theorem mapKeys_cons {α : Type} (p : String × α) (r : List (String × α)) :
    mapKeys (p :: r) = p.1 :: mapKeys r :=
  rfl

theorem mapGet_set_self {α : Type} (m : List (String × α)) (k : String)
    (v : α) : mapGet (mapSet m k v) k = some v := by
  induction m with
  | nil => simp [mapSet, mapGet]
  | cons p r ih =>
    by_cases h : p.1 = k <;> simp [mapSet, mapGet, h, ih]

theorem mapGet_set_ne {α : Type} (m : List (String × α)) (k k' : String)
    (v : α) (h : k' ≠ k) : mapGet (mapSet m k v) k' = mapGet m k' := by
  have hk : ¬ (k = k') := fun hh => h hh.symm
  induction m with
  | nil => simp [mapSet, mapGet, hk]
  | cons p r ih =>
    by_cases hp : p.1 = k
    · have hpk : ¬ (p.1 = k') := by rw [hp]; exact hk
      simp [mapSet, mapGet, hp, hk, hpk]
    · by_cases hq : p.1 = k' <;> simp [mapSet, mapGet, hp, hq, ih, h, hk]

theorem mapGet_delete_self {α : Type} (m : List (String × α)) (k : String) :
    mapGet (mapDelete m k) k = none := by
  induction m with
  | nil => simp [mapDelete, mapGet]
  | cons p r ih =>
    by_cases h : p.1 = k <;> simp [mapDelete, mapGet, h, ih]

theorem mapGet_delete_ne {α : Type} (m : List (String × α)) (k k' : String)
    (h : k' ≠ k) : mapGet (mapDelete m k) k' = mapGet m k' := by
  have hk : ¬ (k = k') := fun hh => h hh.symm
  induction m with
  | nil => simp [mapDelete, mapGet]
  | cons p r ih =>
    by_cases hp : p.1 = k
    · have hpk : ¬ (p.1 = k') := by
        rw [hp]; exact hk
      simp [mapDelete, mapGet, hp, hpk, ih, hk]
    · by_cases hq : p.1 = k' <;> simp [mapDelete, mapGet, hp, hq, ih, h, hk]

theorem mapGet_eq_none_iff {α : Type} (m : List (String × α)) (k : String) :
    mapGet m k = none ↔ k ∉ mapKeys m := by
  induction m with
  | nil => simp [mapGet, mapKeys]
  | cons p r ih =>
    by_cases h : p.1 = k <;>
      simp only [mapGet, h, if_pos, if_neg, not_false_iff, mapKeys_cons,
        List.mem_cons, ih] <;> tauto

theorem mapGet_isSome_iff {α : Type} (m : List (String × α)) (k : String) :
    (mapGet m k).isSome ↔ k ∈ mapKeys m := by
  rw [Option.isSome_iff_ne_none]
  constructor
  · intro h
    by_contra hk
    exact h ((mapGet_eq_none_iff m k).mpr hk)
  · intro h he
    exact ((mapGet_eq_none_iff m k).mp he) h

theorem mapKeys_set {α : Type} (m : List (String × α)) (k : String) (v : α) :
    mapKeys (mapSet m k v) = if k ∈ mapKeys m then mapKeys m
      else mapKeys m ++ [k] := by
  induction m with
  | nil => simp [mapSet, mapKeys]
  | cons p r ih =>
    by_cases h : p.1 = k
    · simp [mapSet, mapKeys, h]
    · have hkp : ¬ (k = p.1) := fun hh => h hh.symm
      by_cases hk : k ∈ mapKeys r
      · have hmem : k ∈ mapKeys (p :: r) := by
          rw [mapKeys_cons]
          exact List.mem_cons_of_mem _ hk
        rw [if_pos hmem]
        have ih' : mapKeys (mapSet r k v) = mapKeys r := by
          rw [ih, if_pos hk]
        simp only [mapSet, if_neg h, mapKeys_cons, ih']
      · have hmem : k ∉ mapKeys (p :: r) := by
          rw [mapKeys_cons]
          intro hc
          rcases List.mem_cons.mp hc with hc | hc
          · exact hkp hc
          · exact hk hc
        rw [if_neg hmem]
        have ih' : mapKeys (mapSet r k v) = mapKeys r ++ [k] := by
          rw [ih, if_neg hk]
        simp only [mapSet, if_neg h, mapKeys_cons, ih', List.cons_append]

theorem keysNodup_set {α : Type} (m : List (String × α)) (k : String)
    (v : α) (h : keysNodup m) : keysNodup (mapSet m k v) := by
  unfold keysNodup at h ⊢
  rw [mapKeys_set]
  by_cases hk : k ∈ mapKeys m
  · simpa [hk]
  · simpa [hk, List.nodup_append] using h

theorem mapDelete_sublist {α : Type} (m : List (String × α)) (k : String) :
    (mapDelete m k).Sublist m := by
  induction m with
  | nil => simp [mapDelete]
  | cons p r ih =>
    by_cases h : p.1 = k
    · simp only [mapDelete, h, if_pos]
      exact ih.cons p
    · simp only [mapDelete, h, if_neg, not_false_iff]
      exact ih.cons₂ p

theorem keysNodup_delete {α : Type} (m : List (String × α)) (k : String)
    (h : keysNodup m) : keysNodup (mapDelete m k) := by
  unfold keysNodup mapKeys at h ⊢
  exact (List.Sublist.map (fun p => p.1) (mapDelete_sublist m k)).nodup h

theorem mapGet_mem {α : Type} (m : List (String × α)) (k : String) (v : α)
    (h : mapGet m k = some v) : (k, v) ∈ m := by
  induction m with
  | nil => simp [mapGet] at h
  | cons p r ih =>
    obtain ⟨a, b⟩ := p
    by_cases hp : a = k
    · simp only [mapGet] at h
      rw [if_pos hp] at h
      injection h with h
      rw [← hp, ← h]
      exact List.mem_cons_self _ _
    · simp only [mapGet] at h
      rw [if_neg hp] at h
      exact List.mem_cons_of_mem _ (ih h)

theorem mem_mapGet {α : Type} (m : List (String × α)) (k : String) (v : α)
    (hn : keysNodup m) (h : (k, v) ∈ m) : mapGet m k = some v := by
  induction m with
  | nil => simp at h
  | cons p r ih =>
    rw [keysNodup, mapKeys_cons, List.nodup_cons] at hn
    rcases List.mem_cons.mp h with h1 | h1
    · rw [← h1]
      simp [mapGet]
    · have hk : ¬ (p.1 = k) := by
        intro he
        apply hn.1
        rw [he]
        exact List.mem_map.mpr ⟨(k, v), h1, rfl⟩
      simp only [mapGet]
      rw [if_neg hk]
      exact ih hn.2 h1

/-! ### The id generator

`generateDeviceId` returns `` `device-${Date.now()}-${randomSuffix}` ``.
Collisions have negligible probability and the registry invariants of the
spec only hold in their absence, so the generator is embedded as a counter
rendered in decimal: `genId n = "device-" ++ n`.  We prove the decimal
rendering injective so that generated ids are pairwise distinct. -/

/-- Decimal digit characters, most significant first, with structural fuel
so that the kernel can evaluate it (`fuel ≥ n` suffices). -/
def natCharsAux : Nat → Nat → List Char
  | 0, n => [Nat.digitChar n]
  | fuel + 1, n =>
    if n < 10 then [Nat.digitChar n]
    else natCharsAux fuel (n / 10) ++ [Nat.digitChar (n % 10)]

/-- Decimal digit characters of a natural number, most significant first
(the digits of `toString n`). -/
def natChars (n : Nat) : List Char :=
  natCharsAux n n

/-- Decimal value of a digit-character list. -/
def charsVal (cs : List Char) : Nat :=
  cs.foldl (fun a c => a * 10 + (c.toNat - 48)) 0

theorem digitChar_toNat (d : Nat) (h : d < 10) :
    (Nat.digitChar d).toNat - 48 = d := by
  interval_cases d <;> decide

theorem charsVal_append_digit (cs : List Char) (c : Char) :
    charsVal (cs ++ [c]) = charsVal cs * 10 + (c.toNat - 48) := by
  simp [charsVal, List.foldl_append]

theorem charsVal_natCharsAux (fuel : Nat) : ∀ n, n ≤ fuel →
    charsVal (natCharsAux fuel n) = n := by
  induction fuel with
  | zero =>
    intro n hn
    have : n = 0 := by omega
    subst this
    decide
  | succ fuel ih =>
    intro n hn
    by_cases h10 : n < 10
    · simp [natCharsAux, h10, charsVal, digitChar_toNat n h10]
    · rw [natCharsAux, if_neg h10, charsVal_append_digit,
        ih (n / 10) (by omega),
        digitChar_toNat (n % 10) (Nat.mod_lt _ (by omega))]
      omega

theorem charsVal_natChars (n : Nat) : charsVal (natChars n) = n :=
  charsVal_natCharsAux n n (Nat.le_refl n)

theorem natChars_injective : Function.Injective natChars := by
  intro a b h
  have := charsVal_natChars a
  rw [h, charsVal_natChars] at this
  exact this.symm

/-- Decimal rendering of a counter value (`toString n`). -/
def natStr (n : Nat) : String :=
  String.mk (natChars n)

/-- `generateDeviceId`, with the timestamp/random pair embedded as a
monotone counter. -/
def genId (n : Nat) : String :=
  "device-" ++ natStr n

/-- JS `x || d` on an optional string field (`undefined` and `""` are
falsy). -/
def jsOrStr (v : Option String) (d : String) : String :=
  match v with
  | some s => if s = "" then d else s
  | none => d

theorem natStr_injective : Function.Injective natStr := by
  intro a b h
  apply natChars_injective
  have := congrArg String.data h
  simpa [natStr] using this

theorem genId_injective : Function.Injective genId := by
  intro a b h
  apply natStr_injective
  have := congrArg String.data h
  simp only [genId] at this
  rw [String.data_append, String.data_append] at this
  exact String.ext (List.append_cancel_left this)

/-! ## `ServerA` — the signaling server of `src/server.js`

State: the module-level maps `connectedPeers` and `deviceInfo`, the id
counter behind `generateDeviceId`, and (ghost, for stating the registry
invariant) the list `openConns` of ids whose underlying socket has not yet
emitted `close`. -/

namespace ServerA

/-- Field values of a signaling envelope.  The router reads only the
`type` and `targetPeerId` fields and routes everything else opaquely, so
values are embedded as atoms (timestamps as the clock value). -/
inductive JVal where
  | vstr (s : String)
  | vnum (n : Nat)
  | vbool (b : Bool)
  | vnull
  deriving DecidableEq

/-- A parsed JSON object: ordered fields with unique names. -/
abbrev Obj := List (String × JVal)

/-- A registered device (`handleDeviceRegistration` / `POST /api/devices`). -/
structure Device where
  id : String
  name : String
  type : String
  capabilities : List String
  registeredAt : Nat
  deriving DecidableEq

/-- One `connectedPeers` entry.  `wsOpen` is
`ws.readyState === WebSocket.OPEN`. -/
structure Peer where
  wsOpen : Bool
  connectedAt : Nat
  peerId : String
  device : Option Device
  deriving DecidableEq

structure ServerState where
  connectedPeers : List (String × Peer)
  deviceInfo : List (String × Device)
  openConns : List String
  nextId : Nat
  deriving DecidableEq

def initState : ServerState :=
  { connectedPeers := [], deviceInfo := [], openConns := [], nextId := 0 }

/-- Entry of a `peer-list` reply. -/
structure PeerSummary where
  peerId : String
  device : Option Device
  connectedAt : Nat
  deriving DecidableEq

/-- Server→client messages, one constructor per `JSON.stringify` site. -/
inductive OutMsg where
  | welcome (peerId : String) (serverTime : Nat)
  | errorMsg (err : String)
  | deviceRegistered (device : Device)
  | discoveryResponse (devices : List Device) (discoveredAt : Nat)
  | peerUpdate (devices : List Device) (totalConnected : Nat) (timestamp : Nat)
  | peerList (peers : List PeerSummary) (totalPeers : Nat) (timestamp : Nat)
  | forwarded (data : Obj)
  deriving DecidableEq

/-- An observable effect of a handler, in program order. -/
inductive Action where
  | send (dest : String) (msg : OutMsg)
  | closeConn (peerId : String)
  deriving DecidableEq

/-- The device list serialized by `broadcastPeerUpdate` (and reused as the
registry snapshot below). -/
def snapshotDevices (st : ServerState) : List Device :=
  st.deviceInfo.map (·.2)

/-- `broadcastPeerUpdate`: one identical `peer-update` to every open peer. -/
def broadcastPeerUpdate (st : ServerState) (now : Nat) : List Action :=
  (st.connectedPeers.filter (fun p => p.2.wsOpen)).map
    (fun p => Action.send p.1
      (OutMsg.peerUpdate (snapshotDevices st) st.connectedPeers.length now))

/-- Payload of a `register-device` message, at the types the code expects
(`deviceData?.name`, `deviceData?.type`, `deviceData?.capabilities`). -/
structure RegPayload where
  name : Option String
  type : Option String
  capabilities : Option (List String)
  deriving DecidableEq

/-- The `Device` literal built by `handleDeviceRegistration`. -/
def buildDevice (peerId : String) (payload : Option RegPayload)
    (now : Nat) : Device :=
  { id := peerId
    name := jsOrStr (payload.bind (·.name)) ("Device-" ++ peerId.take 8)
    type := jsOrStr (payload.bind (·.type)) "unknown"
    capabilities := (payload.bind (·.capabilities)).getD []
    registeredAt := now }

/-- `handleDeviceRegistration`: build the device, store it in `deviceInfo`,
attach it to the peer entry when one exists, fan out, then confirm to the
issuer when its socket is open. -/
def handleDeviceRegistration (st : ServerState) (peerId : String)
    (payload : Option RegPayload) (now : Nat) : ServerState × List Action :=
  let device := buildDevice peerId payload now
  let st1 := { st with deviceInfo := mapSet st.deviceInfo peerId device }
  let st2 :=
    match mapGet st1.connectedPeers peerId with
    | some peer =>
      let peers' :=
        mapSet st1.connectedPeers peerId { peer with device := some device }
      { st1 with connectedPeers := peers' }
    | none => st1
  let confirm :=
    match mapGet st2.connectedPeers peerId with
    | some peerConn =>
      if peerConn.wsOpen then
        [Action.send peerId (OutMsg.deviceRegistered device)]
      else []
    | none => []
  (st2, broadcastPeerUpdate st2 now ++ confirm)

/-- `handleDiscoveryRequest`: reply (to an open requester only) with every
registered device other than the requester's own. -/
def handleDiscoveryRequest (st : ServerState) (peerId : String)
    (now : Nat) : List Action :=
  let discoveredDevices :=
    (st.deviceInfo.map (·.2)).filter (fun d => d.id ≠ peerId)
  match mapGet st.connectedPeers peerId with
  | some peerConn =>
    if peerConn.wsOpen then
      [Action.send peerId (OutMsg.discoveryResponse discoveredDevices now)]
    else []
  | none => []

/-- `` `${targetPeerId}` `` in the error template (`undefined` when the
field is absent). -/
def targetDisplay (targetPeerId : Option String) : String :=
  match targetPeerId with
  | some t => t
  | none => "undefined"

/-- `{...data, fromPeerId, forwardedAt}`: the spread copy with the two
fields set last. -/
def forwardedData (fromPeerId : String) (data : Obj) (now : Nat) : Obj :=
  mapSet (mapSet data "fromPeerId" (JVal.vstr fromPeerId))
    "forwardedAt" (JVal.vnum now)

/-- `forwardSignalingMessage`: deliver the augmented envelope to an open
target, otherwise report `Target peer '…' is not available` to the sender
(when the sender's own socket is still open). -/
def forwardSignalingMessage (st : ServerState) (fromPeerId : String)
    (targetPeerId : Option String) (data : Obj) (now : Nat) : List Action :=
  let fail : List Action :=
    match mapGet st.connectedPeers fromPeerId with
    | some sourcePeer =>
      if sourcePeer.wsOpen then
        [Action.send fromPeerId (OutMsg.errorMsg
          ("Target peer '" ++ targetDisplay targetPeerId ++
            "' is not available"))]
      else []
    | none => []
  match targetPeerId with
  | some t =>
    match mapGet st.connectedPeers t with
    | some targetPeer =>
      if targetPeer.wsOpen then
        [Action.send t (OutMsg.forwarded (forwardedData fromPeerId data now))]
      else fail
    | none => fail
  | none => fail

/-- `sendPeerList`: the full participant list minus the requester. -/
def sendPeerList (st : ServerState) (peerId : String) (now : Nat) :
    List Action :=
  match mapGet st.connectedPeers peerId with
  | some peerConn =>
    if peerConn.wsOpen then
      let peers :=
        ((st.connectedPeers.map (·.2)).filter
          (fun p => p.peerId ≠ peerId)).map
          (fun p => PeerSummary.mk p.peerId p.device p.connectedAt)
      [Action.send peerId (OutMsg.peerList peers peers.length now)]
    else []
  | none => []

/-- A parsed inbound envelope, tagged the way the `switch` in
`handleSignalingMessage` reads it; the three forwarded kinds keep the raw
envelope, which is what the code forwards. -/
inductive ClientMsg where
  | registerDevice (payload : Option RegPayload)
  | discoveryRequest
  | offer (targetPeerId : Option String) (data : Obj)
  | answer (targetPeerId : Option String) (data : Obj)
  | iceCandidate (targetPeerId : Option String) (data : Obj)
  | peerListRequest
  | unknown (tag : String)
  deriving DecidableEq

/-- `handleSignalingMessage`: dispatch on the `type` tag; unknown tags are
logged and ignored. -/
def handleSignalingMessage (st : ServerState) (peerId : String)
    (msg : ClientMsg) (now : Nat) : ServerState × List Action :=
  match msg with
  | .registerDevice payload => handleDeviceRegistration st peerId payload now
  | .discoveryRequest => (st, handleDiscoveryRequest st peerId now)
  | .offer t data => (st, forwardSignalingMessage st peerId t data now)
  | .answer t data => (st, forwardSignalingMessage st peerId t data now)
  | .iceCandidate t data => (st, forwardSignalingMessage st peerId t data now)
  | .peerListRequest => (st, sendPeerList st peerId now)
  | .unknown _ => (st, [])

/-- Result of `JSON.parse` on a raw frame; `malformed` is the thrown case. -/
inductive RawMsg where
  | malformed
  | parsed (msg : ClientMsg)
  deriving DecidableEq

/-- `ws.on('message')`: parse and dispatch; a parse failure is answered
with a single error to the sender and nothing else. -/
def wsOnMessage (st : ServerState) (peerId : String) (raw : RawMsg)
    (now : Nat) : ServerState × List Action :=
  match raw with
  | .malformed =>
    (st, [Action.send peerId (OutMsg.errorMsg "Invalid message format")])
  | .parsed m => handleSignalingMessage st peerId m now

/-- `wss.on('connection')`: allocate a fresh id, insert the registry entry
with no device, send `welcome`, fan out. -/
def wsOnConnection (st : ServerState) (now : Nat) :
    ServerState × List Action :=
  let peerId := genId st.nextId
  let st1 := { st with
    connectedPeers := mapSet st.connectedPeers peerId
      { wsOpen := true, connectedAt := now, peerId := peerId, device := none }
    openConns := st.openConns ++ [peerId]
    nextId := st.nextId + 1 }
  (st1, Action.send peerId (OutMsg.welcome peerId now) ::
    broadcastPeerUpdate st1 now)

/-- `ws.on('close')`: drop the registry and device entries, fan out. -/
def wsOnClose (st : ServerState) (peerId : String) (now : Nat) :
    ServerState × List Action :=
  let st1 := { st with
    connectedPeers := mapDelete st.connectedPeers peerId
    deviceInfo := mapDelete st.deviceInfo peerId
    openConns := st.openConns.filter (fun i => i ≠ peerId) }
  (st1, broadcastPeerUpdate st1 now)

/-- Outcome of an HTTP device route. -/
inductive HttpResult where
  | badRequest (err : String)
  | created (device : Device)
  | deleted (deviceId : String)
  | notFound (deviceId : String)
  deriving DecidableEq

/-- JS truthiness of an optional string (`undefined` and `""` are falsy). -/
def truthyStr (v : Option String) : Bool :=
  match v with
  | some s => s ≠ ""
  | none => false

/-- The `Device` literal built by `POST /api/devices` (`generateDeviceId`
supplies the fresh id). -/
def postedDevice (st : ServerState) (name type_ : Option String)
    (capabilities : Option (List String)) (now : Nat) : Device :=
  { id := genId st.nextId, name := name.getD "", type := type_.getD ""
    capabilities := capabilities.getD [], registeredAt := now }

/-- `POST /api/devices`: register a device under a freshly generated id,
with no connection attached. -/
def postDevice (st : ServerState) (name type_ : Option String)
    (capabilities : Option (List String)) (now : Nat) :
    ServerState × HttpResult × List Action :=
  if truthyStr name && truthyStr type_ then
    let deviceId := genId st.nextId
    let device := postedDevice st name type_ capabilities now
    let st1 := { st with
      deviceInfo := mapSet st.deviceInfo deviceId device
      nextId := st.nextId + 1 }
    (st1, HttpResult.created device, broadcastPeerUpdate st1 now)
  else
    (st, HttpResult.badRequest "Device name and type are required", [])

/-- `DELETE /api/devices/:deviceId`: drop the device; when a connection
with that id is open, close it too (its registry entry stays until the
`close` event fires). -/
def httpDeleteDevice (st : ServerState) (deviceId : String) (now : Nat) :
    ServerState × HttpResult × List Action :=
  match mapGet st.deviceInfo deviceId with
  | none => (st, HttpResult.notFound deviceId, [])
  | some _ =>
    let st1 := { st with deviceInfo := mapDelete st.deviceInfo deviceId }
    match mapGet st1.connectedPeers deviceId with
    | some peer =>
      if peer.wsOpen then
        let st2 := { st1 with
          connectedPeers :=
            mapSet st1.connectedPeers deviceId { peer with wsOpen := false }
          openConns := st1.openConns.filter (fun i => i ≠ deviceId) }
        (st2, HttpResult.deleted deviceId,
          Action.closeConn deviceId :: broadcastPeerUpdate st2 now)
      else (st1, HttpResult.deleted deviceId, broadcastPeerUpdate st1 now)
    | none => (st1, HttpResult.deleted deviceId, broadcastPeerUpdate st1 now)

/-- The server's event alphabet. -/
inductive Event where
  | connect
  | wsMessage (peerId : String) (raw : RawMsg)
  | disconnect (peerId : String)
  | postDev (name type_ : Option String) (capabilities : Option (List String))
  | deleteDev (deviceId : String)
  deriving DecidableEq

def step (st : ServerState) (e : Event) (now : Nat) :
    ServerState × List Action :=
  match e with
  | .connect => wsOnConnection st now
  | .wsMessage pid raw => wsOnMessage st pid raw now
  | .disconnect pid => wsOnClose st pid now
  | .postDev n t c =>
    let r := postDevice st n t c now
    (r.1, r.2.2)
  | .deleteDev d =>
    let r := httpDeleteDevice st d now
    (r.1, r.2.2)

def steps (st : ServerState) (evs : List (Event × Nat)) : ServerState :=
  match evs with
  | [] => st
  | e :: r => steps (step st e.1 e.2).1 r

/-- Admissible next event for the connect/register/disconnect sequences of
the registry claims: a `register-device` arrives over a live connection
(so its issuer is registered), a `close` fires only for a live socket, and
the HTTP surface is excluded. -/
def seqEventOk (st : ServerState) (e : Event) : Bool :=
  match e with
  | .connect => true
  | .disconnect pid => decide (pid ∈ st.openConns)
  | .wsMessage pid (.parsed (.registerDevice _)) =>
    (mapGet st.connectedPeers pid).isSome
  | .wsMessage _ _ => true
  | _ => false

def validSeq (st : ServerState) (evs : List (Event × Nat)) : Bool :=
  match evs with
  | [] => true
  | e :: r => seqEventOk st e.1 && validSeq (step st e.1 e.2).1 r

/-- `s` was produced by the id generator before counter value `n`. -/
def idBound (n : Nat) (s : String) : Bool :=
  (List.range n).any (fun k => genId k = s)

/-- Structural registry invariant: unique keys, every entry's socket open
and self-identified, registry membership coincides with the ghost open-
socket list, and all ids come from the generator. -/
def invRegistry (st : ServerState) : Bool :=
  decide (keysNodup st.connectedPeers) &&
  decide (keysNodup st.deviceInfo) &&
  st.connectedPeers.all (fun p =>
    p.2.wsOpen && (p.2.peerId = p.1) && st.openConns.contains p.1 &&
      idBound st.nextId p.1) &&
  st.openConns.all (fun i => (mapGet st.connectedPeers i).isSome) &&
  st.deviceInfo.all (fun q => (q.2.id = q.1) && idBound st.nextId q.1)

/-- Device/registry correspondence: `deviceInfo` holds exactly the devices
attached to registered peers (true while no HTTP registration happened). -/
def invDevices (st : ServerState) : Bool :=
  st.deviceInfo.all (fun q =>
    match mapGet st.connectedPeers q.1 with
    | some p => p.device = some q.2
    | none => false) &&
  st.connectedPeers.all (fun p =>
    match p.2.device with
    | some d => mapGet st.deviceInfo p.1 = some d
    | none => mapGet st.deviceInfo p.1 = none)

end ServerA

/-! ### Generic helper lemmas for the claim theorems -/

theorem mapKeys_set_mem {α : Type} (m : List (String × α)) (k k' : String)
    (v : α) : k' ∈ mapKeys (mapSet m k v) ↔ k' ∈ mapKeys m ∨ k' = k := by
  rw [mapKeys_set]
  by_cases hk : k ∈ mapKeys m
  · rw [if_pos hk]
    constructor
    · exact Or.inl
    · intro h
      rcases h with h | h
      · exact h
      · rw [h]; exact hk
  · rw [if_neg hk]
    simp

namespace ServerA

/-- Every action emitted by `broadcastPeerUpdate` is a `peer-update` send. -/
theorem broadcastPeerUpdate_shape (st : ServerState) (now : Nat)
    (a : Action) (ha : a ∈ broadcastPeerUpdate st now) :
    ∃ d, a = Action.send d
      (OutMsg.peerUpdate (snapshotDevices st) st.connectedPeers.length now) := by
  unfold broadcastPeerUpdate at ha
  rcases List.mem_map.mp ha with ⟨p, _, hp⟩
  exact ⟨p.1, hp.symm⟩

/-- No error message ever rides a fan-out. -/
theorem broadcastPeerUpdate_no_error (st : ServerState) (now : Nat)
    (dest e : String) :
    Action.send dest (OutMsg.errorMsg e) ∉ broadcastPeerUpdate st now := by
  intro h
  have := broadcastPeerUpdate_shape st now _ h
  simp at this

/-- The target is absent from the registry or its socket is not open
(readable off the state, so witnesses can discharge it by `decide`). -/
def targetUnavailable (st : ServerState) (target : String) : Bool :=
  match mapGet st.connectedPeers target with
  | some tp => !tp.wsOpen
  | none => true

end ServerA

/-- Claim C1: forwarding an `offer`, `answer` or `ice-candidate` whose
`targetPeerId` names a registry entry with an open handle delivers to the
target, and only to it, the sender's envelope with exactly `fromPeerId`
(the sender's id) and a `forwardedAt` timestamp set, every other field
preserved unmodified and no further field added. -/
theorem ServerA.forward_content_preservation
    (st : ServerA.ServerState) (fromPeerId target : String)
    (data : ServerA.Obj) (now : Nat) (tp : ServerA.Peer)
    (hget : mapGet st.connectedPeers target = some tp)
    (hopen : tp.wsOpen = true) :
    (ServerA.handleSignalingMessage st fromPeerId
        (ServerA.ClientMsg.offer (some target) data) now =
      (st, [ServerA.Action.send target (ServerA.OutMsg.forwarded
        (ServerA.forwardedData fromPeerId data now))]) ∧
     ServerA.handleSignalingMessage st fromPeerId
        (ServerA.ClientMsg.answer (some target) data) now =
      (st, [ServerA.Action.send target (ServerA.OutMsg.forwarded
        (ServerA.forwardedData fromPeerId data now))]) ∧
     ServerA.handleSignalingMessage st fromPeerId
        (ServerA.ClientMsg.iceCandidate (some target) data) now =
      (st, [ServerA.Action.send target (ServerA.OutMsg.forwarded
        (ServerA.forwardedData fromPeerId data now))])) ∧
    mapGet (ServerA.forwardedData fromPeerId data now) "fromPeerId" =
      some (ServerA.JVal.vstr fromPeerId) ∧
    mapGet (ServerA.forwardedData fromPeerId data now) "forwardedAt" =
      some (ServerA.JVal.vnum now) ∧
    (∀ k, k ≠ "fromPeerId" → k ≠ "forwardedAt" →
      mapGet (ServerA.forwardedData fromPeerId data now) k = mapGet data k) ∧
    (∀ k, k ∈ mapKeys (ServerA.forwardedData fromPeerId data now) ↔
      k ∈ mapKeys data ∨ k = "fromPeerId" ∨ k = "forwardedAt") := by
  refine ⟨⟨?_, ?_, ?_⟩, ?_, ?_, ?_, ?_⟩
  · simp [ServerA.handleSignalingMessage, ServerA.forwardSignalingMessage,
      hget, hopen]
  · simp [ServerA.handleSignalingMessage, ServerA.forwardSignalingMessage,
      hget, hopen]
  · simp [ServerA.handleSignalingMessage, ServerA.forwardSignalingMessage,
      hget, hopen]
  · unfold ServerA.forwardedData
    rw [mapGet_set_ne _ _ _ _ (by decide), mapGet_set_self]
  · unfold ServerA.forwardedData
    rw [mapGet_set_self]
  · intro k hk1 hk2
    unfold ServerA.forwardedData
    rw [mapGet_set_ne _ _ _ _ hk2, mapGet_set_ne _ _ _ _ hk1]
  · intro k
    unfold ServerA.forwardedData
    rw [mapKeys_set_mem, mapKeys_set_mem]
    tauto

/-- Concrete state for the forwarding witnesses: peer `b` registered and
open. -/
def ServerA.stFwdOpen : ServerA.ServerState :=
  { connectedPeers :=
      [("b", { wsOpen := true, connectedAt := 0, peerId := "b",
               device := none })]
    deviceInfo := []
    openConns := ["b"]
    nextId := 0 }

theorem ServerA.forward_content_preservation_witness :
    ServerA.handleSignalingMessage ServerA.stFwdOpen "a"
        (ServerA.ClientMsg.offer (some "b")
          [("sdp", ServerA.JVal.vstr "x")]) 9 =
      (ServerA.stFwdOpen, [ServerA.Action.send "b" (ServerA.OutMsg.forwarded
        [("sdp", ServerA.JVal.vstr "x"),
         ("fromPeerId", ServerA.JVal.vstr "a"),
         ("forwardedAt", ServerA.JVal.vnum 9)])]) ∧
    mapGet (ServerA.forwardedData "a" [("sdp", ServerA.JVal.vstr "x")] 9)
      "sdp" = some (ServerA.JVal.vstr "x") :=
  ⟨by
    have h := (ServerA.forward_content_preservation ServerA.stFwdOpen "a" "b"
      [("sdp", ServerA.JVal.vstr "x")] 9
      { wsOpen := true, connectedAt := 0, peerId := "b", device := none }
      (by decide) rfl).1.1
    simpa [ServerA.forwardedData, mapSet] using h,
   (ServerA.forward_content_preservation ServerA.stFwdOpen "a" "b"
      [("sdp", ServerA.JVal.vstr "x")] 9
      { wsOpen := true, connectedAt := 0, peerId := "b", device := none }
      (by decide) rfl).2.2.2.1 "sdp" (by decide) (by decide)⟩

/-- Concrete state for the C2 counterexample: peer `b` still has a registry
entry but its socket is no longer open (the state `DELETE /api/devices/b`
leaves behind until the close event fires), and `ghost` is absent. -/
def ServerA.stClosedSender : ServerA.ServerState :=
  { connectedPeers :=
      [("b", { wsOpen := false, connectedAt := 0, peerId := "b",
               device := none })]
    deviceInfo := []
    openConns := []
    nextId := 0 }

/-- Claim C2, counterexample: with the sender's handle no longer open,
forwarding to the absent target `ghost` delivers nothing — but the sender
does not receive the error reply either, against the claim's "the sender
always receives exactly one error reply". -/
theorem ServerA.forward_ghost_counterexample :
    mapGet ServerA.stClosedSender.connectedPeers "ghost" = none ∧
    ServerA.forwardSignalingMessage ServerA.stClosedSender "b"
      (some "ghost") [] 0 = [] := by
  constructor
  · rfl
  · rfl

/-- Claim C2 (amended): forwarding to an absent-or-closed target delivers
nothing to any target and — provided the sender still has a registry entry
with an open handle — sends exactly one error reply to the sender naming
the missing target; otherwise it sends nothing at all. -/
theorem ServerA.forward_target_unavailable
    (st : ServerA.ServerState) (fromPeerId target : String)
    (data : ServerA.Obj) (now : Nat) (sp : ServerA.Peer)
    (hun : ServerA.targetUnavailable st target = true)
    (hsender : mapGet st.connectedPeers fromPeerId = some sp)
    (hopen : sp.wsOpen = true) :
    ServerA.forwardSignalingMessage st fromPeerId (some target) data now =
      [ServerA.Action.send fromPeerId (ServerA.OutMsg.errorMsg
        ("Target peer '" ++ target ++ "' is not available"))] := by
  unfold ServerA.targetUnavailable at hun
  unfold ServerA.forwardSignalingMessage
  cases hget : mapGet st.connectedPeers target with
  | none =>
    simp [hget, hsender, hopen, ServerA.targetDisplay]
  | some tp =>
    rw [hget] at hun
    have hun' : (!tp.wsOpen) = true := hun
    have : tp.wsOpen = false := by simpa using hun'
    simp [hget, this, hsender, hopen, ServerA.targetDisplay]

theorem ServerA.forward_target_unavailable_witness :
    ServerA.targetUnavailable ServerA.stFwdOpen "ghost" = true ∧
    ServerA.forwardSignalingMessage ServerA.stFwdOpen "b" (some "ghost")
        [] 0 =
      [ServerA.Action.send "b" (ServerA.OutMsg.errorMsg
        "Target peer 'ghost' is not available")] :=
  ⟨by decide,
   ServerA.forward_target_unavailable ServerA.stFwdOpen "b" "ghost" [] 0
     { wsOpen := true, connectedAt := 0, peerId := "b", device := none }
     (by decide) (by decide) rfl⟩

/-- Claim C6, counterexample: a `register-device` issued for the id `p9`,
absent from the registry, stores the built device under `p9` anyway and
produces no reply at all — no `UnknownParticipant`-style error and no
validation of the issuing id. -/
theorem ServerA.register_absent_counterexample :
    mapGet ServerA.initState.connectedPeers "p9" = none ∧
    mapGet (ServerA.handleDeviceRegistration ServerA.initState "p9"
        none 5).1.deviceInfo "p9" =
      some (ServerA.buildDevice "p9" none 5) ∧
    (ServerA.handleDeviceRegistration ServerA.initState "p9" none 5).2 =
      [] := by
  refine ⟨rfl, ?_, rfl⟩
  decide

/-- Claim C6 (amended): `handleDeviceRegistration` performs no existence
check — for an id absent from the registry it still stores the built
device in `deviceInfo` under that id, attaches nothing to any peer, leaves
the registry untouched, and emits only the fan-out (neither a confirmation
nor any error). -/
theorem ServerA.register_absent_stores_device
    (st : ServerA.ServerState) (peerId : String)
    (payload : Option ServerA.RegPayload) (now : Nat)
    (habs : mapGet st.connectedPeers peerId = none) :
    (ServerA.handleDeviceRegistration st peerId payload now).1.connectedPeers
        = st.connectedPeers ∧
    (ServerA.handleDeviceRegistration st peerId payload now).1.deviceInfo =
      mapSet st.deviceInfo peerId (ServerA.buildDevice peerId payload now) ∧
    (ServerA.handleDeviceRegistration st peerId payload now).2 =
      ServerA.broadcastPeerUpdate
        (ServerA.handleDeviceRegistration st peerId payload now).1 now ∧
    (∀ dest e, ServerA.Action.send dest (ServerA.OutMsg.errorMsg e) ∉
      (ServerA.handleDeviceRegistration st peerId payload now).2) ∧
    (∀ dest d, ServerA.Action.send dest (ServerA.OutMsg.deviceRegistered d) ∉
      (ServerA.handleDeviceRegistration st peerId payload now).2) := by
  have hout : (ServerA.handleDeviceRegistration st peerId payload now).2 =
      ServerA.broadcastPeerUpdate
        (ServerA.handleDeviceRegistration st peerId payload now).1 now := by
    simp [ServerA.handleDeviceRegistration, habs]
  refine ⟨by simp [ServerA.handleDeviceRegistration, habs],
    by simp [ServerA.handleDeviceRegistration, habs], hout, ?_, ?_⟩
  · intro dest e hmem
    rw [hout] at hmem
    exact ServerA.broadcastPeerUpdate_no_error _ _ _ _ hmem
  · intro dest d hmem
    rw [hout] at hmem
    rcases ServerA.broadcastPeerUpdate_shape _ _ _ hmem with ⟨d', hd⟩
    simp at hd

theorem ServerA.register_absent_stores_device_witness :
    mapGet ServerA.initState.connectedPeers "p9" = none ∧
    (ServerA.handleDeviceRegistration ServerA.initState "p9" none 5).1.deviceInfo
      = mapSet ServerA.initState.deviceInfo "p9"
          (ServerA.buildDevice "p9" none 5) :=
  ⟨by decide,
   (ServerA.register_absent_stores_device ServerA.initState "p9" none 5
     (by decide)).2.1⟩

/-- Claim C8: a raw frame that fails `JSON.parse` yields exactly one error
reply to the sender alone — the state (registry, device store and open
sockets) is unchanged, no other participant receives anything, and no
close is issued. -/
theorem ServerA.malformed_message_error
    (st : ServerA.ServerState) (peerId : String) (now : Nat) :
    ServerA.wsOnMessage st peerId ServerA.RawMsg.malformed now =
      (st, [ServerA.Action.send peerId
        (ServerA.OutMsg.errorMsg "Invalid message format")]) :=
  rfl

/-! ### Registry invariants of `ServerA` (claims on connect/register/
disconnect sequences) -/

theorem mapKeys_delete_mem {α : Type} (m : List (String × α))
    (k k' : String) :
    k' ∈ mapKeys (mapDelete m k) ↔ k' ∈ mapKeys m ∧ k' ≠ k := by
  by_cases h : k' = k
  · subst h
    rw [← mapGet_isSome_iff, mapGet_delete_self]
    simp
  · rw [← mapGet_isSome_iff, mapGet_delete_ne m k k' h, mapGet_isSome_iff]
    simp [h]

theorem genId_fresh {n : Nat} {k : String}
    (hb : ∃ j, j < n ∧ k = genId j) : k ≠ genId n := by
  rcases hb with ⟨j, hj, rfl⟩
  intro h
  have := genId_injective h
  omega

namespace ServerA

/-- Structural registry invariant preserved by every connection-lifecycle
event: unique keys, every live entry open and self-identified, registry
membership coinciding with the open sockets, and all ids produced by the
generator before the current counter value. -/
structure InvP (st : ServerState) : Prop where
  nodupP : keysNodup st.connectedPeers
  nodupD : keysNodup st.deviceInfo
  peersOpen : ∀ k p, mapGet st.connectedPeers k = some p →
    p.wsOpen = true ∧ p.peerId = k
  memConns : ∀ k, k ∈ mapKeys st.connectedPeers ↔ k ∈ st.openConns
  peersBound : ∀ k ∈ mapKeys st.connectedPeers,
    ∃ j, j < st.nextId ∧ k = genId j
  devsBound : ∀ k ∈ mapKeys st.deviceInfo,
    ∃ j, j < st.nextId ∧ k = genId j
  devId : ∀ k d, mapGet st.deviceInfo k = some d → d.id = k

/-- `deviceInfo` holds exactly the devices attached to registered peers
(true while the HTTP surface is unused). -/
def DevMatch (st : ServerState) : Prop :=
  ∀ k, mapGet st.deviceInfo k = (mapGet st.connectedPeers k).bind (·.device)

theorem invP_init : InvP initState := by
  refine ⟨?_, ?_, ?_, ?_, ?_, ?_, ?_⟩ <;>
    simp [initState, keysNodup, mapKeys, mapGet]

theorem devMatch_init : DevMatch initState := fun _ => rfl

theorem wsOnConnection_fst (st : ServerState) (now : Nat) :
    (wsOnConnection st now).1 = { st with
      connectedPeers := mapSet st.connectedPeers (genId st.nextId)
        { wsOpen := true, connectedAt := now, peerId := genId st.nextId,
          device := none }
      openConns := st.openConns ++ [genId st.nextId]
      nextId := st.nextId + 1 } :=
  rfl

theorem wsOnClose_fst (st : ServerState) (peerId : String) (now : Nat) :
    (wsOnClose st peerId now).1 = { st with
      connectedPeers := mapDelete st.connectedPeers peerId
      deviceInfo := mapDelete st.deviceInfo peerId
      openConns := st.openConns.filter (fun i => i ≠ peerId) } :=
  rfl

theorem handleDeviceRegistration_fst (st : ServerState) (pid : String)
    (payload : Option RegPayload) (now : Nat) (p : Peer)
    (hp : mapGet st.connectedPeers pid = some p) :
    (handleDeviceRegistration st pid payload now).1 = { st with
      deviceInfo := mapSet st.deviceInfo pid (buildDevice pid payload now)
      connectedPeers := mapSet st.connectedPeers pid
        { p with device := some (buildDevice pid payload now) } } := by
  unfold handleDeviceRegistration
  simp [hp]

theorem invP_connect (st : ServerState) (now : Nat) (hI : InvP st) :
    InvP (wsOnConnection st now).1 := by
  have hfresh : genId st.nextId ∉ mapKeys st.connectedPeers := by
    intro hmem
    exact genId_fresh (hI.peersBound _ hmem) rfl
  rw [wsOnConnection_fst]
  refine ⟨keysNodup_set _ _ _ hI.nodupP, hI.nodupD, ?_, ?_, ?_, ?_,
    hI.devId⟩
  · intro k p hk
    by_cases h : k = genId st.nextId
    · subst h
      rw [mapGet_set_self] at hk
      injection hk with hk
      rw [← hk]
      exact ⟨rfl, rfl⟩
    · rw [mapGet_set_ne _ _ _ _ h] at hk
      exact hI.peersOpen k p hk
  · intro k
    rw [mapKeys_set_mem]
    rw [List.mem_append, List.mem_singleton]
    constructor
    · intro h
      rcases h with h | h
      · exact Or.inl ((hI.memConns k).mp h)
      · exact Or.inr (by simpa using h)
    · intro h
      rcases h with h | h
      · exact Or.inl ((hI.memConns k).mpr h)
      · exact Or.inr h
  · intro k hk
    rw [mapKeys_set_mem] at hk
    rcases hk with hk | hk
    · rcases hI.peersBound k hk with ⟨j, hj, he⟩
      have hj' : j < st.nextId + 1 := by omega
      exact ⟨j, hj', he⟩
    · have hj' : st.nextId < st.nextId + 1 := by omega
      exact ⟨st.nextId, hj', hk⟩
  · intro k hk
    rcases hI.devsBound k hk with ⟨j, hj, he⟩
    have hj' : j < st.nextId + 1 := by omega
    exact ⟨j, hj', he⟩

theorem invP_register (st : ServerState) (pid : String)
    (payload : Option RegPayload) (now : Nat) (p : Peer)
    (hp : mapGet st.connectedPeers pid = some p) (hI : InvP st) :
    InvP (handleDeviceRegistration st pid payload now).1 := by
  have hpidmem : pid ∈ mapKeys st.connectedPeers := by
    rw [← mapGet_isSome_iff, hp]
    rfl
  rw [handleDeviceRegistration_fst st pid payload now p hp]
  refine ⟨keysNodup_set _ _ _ hI.nodupP, keysNodup_set _ _ _ hI.nodupD,
    ?_, ?_, ?_, ?_, ?_⟩
  · intro k q hk
    by_cases h : k = pid
    · subst h
      rw [mapGet_set_self] at hk
      injection hk with hk
      rcases hI.peersOpen _ _ hp with ⟨h1, h2⟩
      rw [← hk]
      exact ⟨h1, h2⟩
    · rw [mapGet_set_ne _ _ _ _ h] at hk
      exact hI.peersOpen _ _ hk
  · intro k
    rw [mapKeys_set, if_pos hpidmem]
    exact hI.memConns k
  · intro k hk
    rw [mapKeys_set, if_pos hpidmem] at hk
    exact hI.peersBound k hk
  · intro k hk
    rw [mapKeys_set_mem] at hk
    rcases hk with hk | hk
    · exact hI.devsBound k hk
    · subst hk
      exact hI.peersBound k hpidmem
  · intro k d hk
    by_cases h : k = pid
    · subst h
      rw [mapGet_set_self] at hk
      injection hk with hk
      rw [← hk]
      rfl
    · rw [mapGet_set_ne _ _ _ _ h] at hk
      exact hI.devId _ _ hk

theorem invP_disconnect (st : ServerState) (pid : String) (now : Nat)
    (hI : InvP st) : InvP (wsOnClose st pid now).1 := by
  rw [wsOnClose_fst]
  refine ⟨keysNodup_delete _ _ hI.nodupP, keysNodup_delete _ _ hI.nodupD,
    ?_, ?_, ?_, ?_, ?_⟩
  · intro k p hk
    by_cases h : k = pid
    · subst h
      rw [mapGet_delete_self] at hk
      cases hk
    · rw [mapGet_delete_ne _ _ _ h] at hk
      exact hI.peersOpen _ _ hk
  · intro k
    rw [mapKeys_delete_mem]
    constructor
    · rintro ⟨hm, hne⟩
      exact List.mem_filter.mpr ⟨(hI.memConns k).mp hm, by simpa using hne⟩
    · intro hm
      rcases List.mem_filter.mp hm with ⟨hm1, hm2⟩
      exact ⟨(hI.memConns k).mpr hm1, by simpa using hm2⟩
  · intro k hk
    exact hI.peersBound k ((mapKeys_delete_mem _ _ _).mp hk).1
  · intro k hk
    exact hI.devsBound k ((mapKeys_delete_mem _ _ _).mp hk).1
  · intro k d hk
    by_cases h : k = pid
    · subst h
      rw [mapGet_delete_self] at hk
      cases hk
    · rw [mapGet_delete_ne _ _ _ h] at hk
      exact hI.devId _ _ hk

theorem devMatch_connect (st : ServerState) (now : Nat) (hI : InvP st)
    (hD : DevMatch st) : DevMatch (wsOnConnection st now).1 := by
  rw [wsOnConnection_fst]
  intro k
  by_cases h : k = genId st.nextId
  · subst h
    rw [mapGet_set_self]
    have : mapGet st.deviceInfo (genId st.nextId) = none := by
      rw [mapGet_eq_none_iff]
      intro hmem
      exact genId_fresh (hI.devsBound _ hmem) rfl
    rw [this]
    rfl
  · rw [mapGet_set_ne _ _ _ _ h]
    exact hD k

theorem devMatch_register (st : ServerState) (pid : String)
    (payload : Option RegPayload) (now : Nat) (p : Peer)
    (hp : mapGet st.connectedPeers pid = some p) (hD : DevMatch st) :
    DevMatch (handleDeviceRegistration st pid payload now).1 := by
  rw [handleDeviceRegistration_fst st pid payload now p hp]
  intro k
  by_cases h : k = pid
  · subst h
    rw [mapGet_set_self, mapGet_set_self]
    rfl
  · rw [mapGet_set_ne _ _ _ _ h, mapGet_set_ne _ _ _ _ h]
    exact hD k

theorem devMatch_disconnect (st : ServerState) (pid : String) (now : Nat)
    (hD : DevMatch st) : DevMatch (wsOnClose st pid now).1 := by
  rw [wsOnClose_fst]
  intro k
  by_cases h : k = pid
  · subst h
    rw [mapGet_delete_self, mapGet_delete_self]
    rfl
  · rw [mapGet_delete_ne _ _ _ h, mapGet_delete_ne _ _ _ h]
    exact hD k

end ServerA

namespace ServerA

theorem invP_step (st : ServerState) (e : Event) (now : Nat)
    (hI : InvP st) (he : seqEventOk st e = true) :
    InvP (step st e now).1 := by
  cases e with
  | connect => exact invP_connect st now hI
  | wsMessage pid raw =>
    cases raw with
    | malformed => exact hI
    | parsed m =>
      cases m with
      | registerDevice payload =>
        have hs : (mapGet st.connectedPeers pid).isSome := by
          simpa [seqEventOk] using he
        rcases Option.isSome_iff_exists.mp hs with ⟨p, hp⟩
        exact invP_register st pid payload now p hp hI
      | discoveryRequest => exact hI
      | offer t data => exact hI
      | answer t data => exact hI
      | iceCandidate t data => exact hI
      | peerListRequest => exact hI
      | unknown tag => exact hI
  | disconnect pid => exact invP_disconnect st pid now hI
  | postDev n t c => simp [seqEventOk] at he
  | deleteDev d => simp [seqEventOk] at he

theorem devMatch_step (st : ServerState) (e : Event) (now : Nat)
    (hI : InvP st) (hD : DevMatch st) (he : seqEventOk st e = true) :
    DevMatch (step st e now).1 := by
  cases e with
  | connect => exact devMatch_connect st now hI hD
  | wsMessage pid raw =>
    cases raw with
    | malformed => exact hD
    | parsed m =>
      cases m with
      | registerDevice payload =>
        have hs : (mapGet st.connectedPeers pid).isSome := by
          simpa [seqEventOk] using he
        rcases Option.isSome_iff_exists.mp hs with ⟨p, hp⟩
        exact devMatch_register st pid payload now p hp hD
      | discoveryRequest => exact hD
      | offer t data => exact hD
      | answer t data => exact hD
      | iceCandidate t data => exact hD
      | peerListRequest => exact hD
      | unknown tag => exact hD
  | disconnect pid => exact devMatch_disconnect st pid now hD
  | postDev n t c => simp [seqEventOk] at he
  | deleteDev d => simp [seqEventOk] at he

theorem invP_steps (evs : List (Event × Nat)) (st : ServerState)
    (hI : InvP st) (hD : DevMatch st) (hv : validSeq st evs = true) :
    InvP (steps st evs) ∧ DevMatch (steps st evs) := by
  induction evs generalizing st with
  | nil => exact ⟨hI, hD⟩
  | cons e r ih =>
    rw [validSeq, Bool.and_eq_true] at hv
    exact ih _ (invP_step st e.1 e.2 hI hv.1)
      (devMatch_step st e.1 e.2 hI hD hv.1) hv.2

/-- The snapshot serialized by the fan-out is exactly the devices of the
registered (open) participants, without duplicates. -/
theorem snapshot_exact (st : ServerState) (hI : InvP st)
    (hD : DevMatch st) :
    (∀ d, d ∈ snapshotDevices st ↔
      ∃ k p, mapGet st.connectedPeers k = some p ∧ p.device = some d) ∧
    (snapshotDevices st).Nodup := by
  constructor
  · intro d
    constructor
    · intro hd
      rcases List.mem_map.mp hd with ⟨q, hq, hqd⟩
      have hget : mapGet st.deviceInfo q.1 = some q.2 :=
        mem_mapGet _ _ _ hI.nodupD (by simpa using hq)
      have := hD q.1
      rw [hget] at this
      cases hp : mapGet st.connectedPeers q.1 with
      | none =>
        rw [hp] at this
        cases this
      | some p =>
        rw [hp] at this
        refine ⟨q.1, p, hp, ?_⟩
        simp only [Option.some_bind] at this
        rw [← this, hqd]
    · rintro ⟨k, p, hp, hdev⟩
      have := hD k
      rw [hp] at this
      have hget : mapGet st.deviceInfo k = some d := by
        rw [this]
        simpa using hdev
      exact List.mem_map.mpr ⟨(k, d), mapGet_mem _ _ _ hget, rfl⟩
  · have hmap : (snapshotDevices st).map (·.id) = mapKeys st.deviceInfo := by
      unfold snapshotDevices mapKeys
      rw [List.map_map]
      apply List.map_congr_left
      intro q hq
      exact hI.devId q.1 q.2 (mem_mapGet _ _ _ hI.nodupD (by simpa using hq))
    have : ((snapshotDevices st).map (·.id)).Nodup := by
      rw [hmap]
      exact hI.nodupD
    exact List.Nodup.of_map _ this

end ServerA

/-- Claim C3: after any admissible sequence of connect, register-device and
disconnect events (starting from the empty registry), the registry has
pairwise-distinct ids, an entry exists exactly when its connection handle
is open (and every stored entry is open), and the fan-out snapshot
consists exactly of the devices of the participants still open, without
duplicates or stale entries. -/
theorem ServerA.registry_snapshot_invariant (evs : List (ServerA.Event × Nat))
    (hv : ServerA.validSeq ServerA.initState evs = true) :
    keysNodup (ServerA.steps ServerA.initState evs).connectedPeers ∧
    (∀ k, k ∈ mapKeys (ServerA.steps ServerA.initState evs).connectedPeers ↔
      k ∈ (ServerA.steps ServerA.initState evs).openConns) ∧
    (∀ k p, mapGet (ServerA.steps ServerA.initState evs).connectedPeers k =
      some p → p.wsOpen = true) ∧
    (∀ d, d ∈ ServerA.snapshotDevices (ServerA.steps ServerA.initState evs) ↔
      ∃ k p, mapGet (ServerA.steps ServerA.initState evs).connectedPeers k =
        some p ∧ p.device = some d) ∧
    (ServerA.snapshotDevices (ServerA.steps ServerA.initState evs)).Nodup := by
  rcases ServerA.invP_steps evs ServerA.initState ServerA.invP_init
    ServerA.devMatch_init hv with ⟨hI, hD⟩
  rcases ServerA.snapshot_exact _ hI hD with ⟨h1, h2⟩
  exact ⟨hI.nodupP, hI.memConns,
    fun k p hp => (hI.peersOpen k p hp).1, h1, h2⟩

/-- Event sequence exercising the C3 invariant: connect, register, a second
connect, then a disconnect of the first peer. -/
def ServerA.evsC3 : List (ServerA.Event × Nat) :=
  [(ServerA.Event.connect, 1),
   (ServerA.Event.wsMessage "device-0" (ServerA.RawMsg.parsed
      (ServerA.ClientMsg.registerDevice
        (some ⟨some "Laptop", some "client", none⟩))), 2),
   (ServerA.Event.connect, 3),
   (ServerA.Event.disconnect "device-0", 4)]

theorem ServerA.registry_snapshot_invariant_witness :
    ServerA.validSeq ServerA.initState ServerA.evsC3 = true ∧
    keysNodup (ServerA.steps ServerA.initState
      ServerA.evsC3).connectedPeers ∧
    (ServerA.snapshotDevices (ServerA.steps ServerA.initState
      ServerA.evsC3)).Nodup :=
  ⟨by decide,
   (ServerA.registry_snapshot_invariant ServerA.evsC3 (by decide)).1,
   (ServerA.registry_snapshot_invariant ServerA.evsC3 (by decide)).2.2.2.2⟩

/-! ### The HTTP-registered device lifecycle (claim C9) -/

namespace ServerA

/-- A device stored with no corresponding participant connection: present
in `deviceInfo`, absent from the registry and from the open sockets, and
generated before the current counter value. -/
structure OrphanKept (did : String) (d : Device) (st : ServerState) :
    Prop where
  stored : mapGet st.deviceInfo did = some d
  noPeer : mapGet st.connectedPeers did = none
  noConn : did ∉ st.openConns
  bound : ∃ j, j < st.nextId ∧ did = genId j

theorem postDevice_fst (st : ServerState) (name type_ : Option String)
    (caps : Option (List String)) (now : Nat)
    (hn : truthyStr name = true) (ht : truthyStr type_ = true) :
    (postDevice st name type_ caps now).1 = { st with
      deviceInfo := mapSet st.deviceInfo (genId st.nextId)
        (postedDevice st name type_ caps now)
      nextId := st.nextId + 1 } ∧
    (postDevice st name type_ caps now).2.1 =
      HttpResult.created (postedDevice st name type_ caps now) := by
  constructor <;> simp [postDevice, hn, ht]

theorem postDevice_orphan (st : ServerState) (name type_ : Option String)
    (caps : Option (List String)) (now : Nat) (hI : InvP st)
    (hn : truthyStr name = true) (ht : truthyStr type_ = true) :
    InvP (postDevice st name type_ caps now).1 ∧
    OrphanKept (genId st.nextId) (postedDevice st name type_ caps now)
      (postDevice st name type_ caps now).1 := by
  rcases postDevice_fst st name type_ caps now hn ht with ⟨hfst, -⟩
  rw [hfst]
  have hfreshP : genId st.nextId ∉ mapKeys st.connectedPeers :=
    fun hmem => genId_fresh (hI.peersBound _ hmem) rfl
  have hfreshD : genId st.nextId ∉ mapKeys st.deviceInfo :=
    fun hmem => genId_fresh (hI.devsBound _ hmem) rfl
  constructor
  · refine ⟨hI.nodupP, keysNodup_set _ _ _ hI.nodupD, hI.peersOpen,
      hI.memConns, ?_, ?_, ?_⟩
    · intro k hk
      rcases hI.peersBound k hk with ⟨j, hj, he⟩
      have hj' : j < st.nextId + 1 := by omega
      exact ⟨j, hj', he⟩
    · intro k hk
      rw [mapKeys_set_mem] at hk
      rcases hk with hk | hk
      · rcases hI.devsBound k hk with ⟨j, hj, he⟩
        have hj' : j < st.nextId + 1 := by omega
        exact ⟨j, hj', he⟩
      · subst hk
        exact ⟨st.nextId, Nat.lt_succ_self _, rfl⟩
    · intro k d hk
      by_cases h : k = genId st.nextId
      · subst h
        rw [mapGet_set_self] at hk
        injection hk with hk
        rw [← hk]
        rfl
      · rw [mapGet_set_ne _ _ _ _ h] at hk
        exact hI.devId _ _ hk
  · refine ⟨mapGet_set_self _ _ _, ?_, ?_, ⟨st.nextId, Nat.lt_succ_self _,
      rfl⟩⟩
    · rw [mapGet_eq_none_iff]
      exact hfreshP
    · intro hc
      exact hfreshP ((hI.memConns _).mpr hc)

theorem orphan_step (st : ServerState) (e : Event) (now : Nat)
    (did : String) (d : Device) (hI : InvP st) (hO : OrphanKept did d st)
    (he : seqEventOk st e = true) : OrphanKept did d (step st e now).1 := by
  cases e with
  | connect =>
    have hne : did ≠ genId st.nextId := genId_fresh hO.bound
    rw [show (step st .connect now).1 = (wsOnConnection st now).1 from rfl,
      wsOnConnection_fst]
    refine ⟨hO.stored, ?_, ?_, ?_⟩
    · rw [mapGet_set_ne _ _ _ _ hne]
      exact hO.noPeer
    · intro hc
      rcases List.mem_append.mp hc with hc | hc
      · exact hO.noConn hc
      · exact hne (by simpa using hc)
    · rcases hO.bound with ⟨j, hj, he'⟩
      have hj' : j < st.nextId + 1 := by omega
      exact ⟨j, hj', he'⟩
  | wsMessage pid raw =>
    cases raw with
    | malformed => exact hO
    | parsed m =>
      cases m with
      | registerDevice payload =>
        have hs : (mapGet st.connectedPeers pid).isSome := by
          simpa [seqEventOk] using he
        rcases Option.isSome_iff_exists.mp hs with ⟨p, hp⟩
        have hne : did ≠ pid := by
          intro hcc
          subst hcc
          rw [hO.noPeer] at hp
          cases hp
        rw [show (step st (.wsMessage pid (.parsed
            (.registerDevice payload))) now).1 =
          (handleDeviceRegistration st pid payload now).1 from rfl,
          handleDeviceRegistration_fst st pid payload now p hp]
        refine ⟨?_, ?_, hO.noConn, hO.bound⟩
        · rw [mapGet_set_ne _ _ _ _ hne]
          exact hO.stored
        · rw [mapGet_set_ne _ _ _ _ hne]
          exact hO.noPeer
      | discoveryRequest => exact hO
      | offer t data => exact hO
      | answer t data => exact hO
      | iceCandidate t data => exact hO
      | peerListRequest => exact hO
      | unknown tag => exact hO
  | disconnect pid =>
    have hmem : pid ∈ st.openConns := by
      simpa [seqEventOk] using he
    have hne : did ≠ pid := by
      intro hcc
      subst hcc
      exact hO.noConn hmem
    rw [show (step st (.disconnect pid) now).1 = (wsOnClose st pid now).1
      from rfl, wsOnClose_fst]
    refine ⟨?_, ?_, ?_, hO.bound⟩
    · rw [mapGet_delete_ne _ _ _ hne]
      exact hO.stored
    · rw [mapGet_delete_ne _ _ _ hne]
      exact hO.noPeer
    · intro hc
      exact hO.noConn (List.mem_filter.mp hc).1
  | postDev n t c => simp [seqEventOk] at he
  | deleteDev dd => simp [seqEventOk] at he

theorem orphan_steps (evs : List (Event × Nat)) (st : ServerState)
    (did : String) (d : Device) (hI : InvP st) (hO : OrphanKept did d st)
    (hv : validSeq st evs = true) :
    InvP (steps st evs) ∧ OrphanKept did d (steps st evs) := by
  induction evs generalizing st with
  | nil => exact ⟨hI, hO⟩
  | cons e r ih =>
    rw [validSeq, Bool.and_eq_true] at hv
    exact ih _ (invP_step st e.1 e.2 hI hv.1)
      (orphan_step st e.1 e.2 did d hI hO hv.1) hv.2

theorem httpDeleteDevice_removes (st : ServerState) (did : String)
    (now : Nat) (d : Device) (hd : mapGet st.deviceInfo did = some d) :
    mapGet (httpDeleteDevice st did now).1.deviceInfo did = none := by
  cases hp : mapGet st.connectedPeers did with
  | none => simp [httpDeleteDevice, hd, hp, mapGet_delete_self]
  | some peer =>
    cases hw : peer.wsOpen <;>
      simp [httpDeleteDevice, hd, hp, hw, mapGet_delete_self]

/-- Every open participant receives the fan-out payload. -/
theorem broadcast_mem (st : ServerState) (now : Nat) (dest : String)
    (p : Peer) (hp : mapGet st.connectedPeers dest = some p)
    (hw : p.wsOpen = true) :
    Action.send dest (OutMsg.peerUpdate (snapshotDevices st)
      st.connectedPeers.length now) ∈ broadcastPeerUpdate st now := by
  unfold broadcastPeerUpdate
  refine List.mem_map.mpr ⟨(dest, p), ?_, rfl⟩
  exact List.mem_filter.mpr ⟨mapGet_mem _ _ _ hp, by simp [hw]⟩

end ServerA

/-- Claim C9: a device created through `POST /api/devices` is stored under
a freshly generated id with no participant connection; after any further
admissible sequence of connection events (connects, messages, disconnects
— and no sweep exists in this variant) it is still stored, still has no
connection, appears in the fan-out payload delivered to every open
participant, and in the `discovery-response` sent to every registered
participant; only the explicit `DELETE /api/devices/:id` removes it. -/
theorem ServerA.http_device_lifecycle
    (evs1 : List (ServerA.Event × Nat)) (name type_ : Option String)
    (caps : Option (List String)) (now : Nat)
    (evs2 : List (ServerA.Event × Nat)) (now2 now3 : Nat)
    (hv1 : ServerA.validSeq ServerA.initState evs1 = true)
    (hn : ServerA.truthyStr name = true)
    (ht : ServerA.truthyStr type_ = true)
    (hv2 : ServerA.validSeq
      (ServerA.postDevice (ServerA.steps ServerA.initState evs1)
        name type_ caps now).1 evs2 = true) :
    (ServerA.postDevice (ServerA.steps ServerA.initState evs1)
        name type_ caps now).2.1 =
      ServerA.HttpResult.created
        (ServerA.postedDevice (ServerA.steps ServerA.initState evs1)
          name type_ caps now) ∧
    mapGet (ServerA.postDevice (ServerA.steps ServerA.initState evs1)
        name type_ caps now).1.connectedPeers
      (genId (ServerA.steps ServerA.initState evs1).nextId) = none ∧
    genId (ServerA.steps ServerA.initState evs1).nextId ∉
      (ServerA.postDevice (ServerA.steps ServerA.initState evs1)
        name type_ caps now).1.openConns ∧
    mapGet (ServerA.steps (ServerA.postDevice
        (ServerA.steps ServerA.initState evs1) name type_ caps now).1
        evs2).deviceInfo
      (genId (ServerA.steps ServerA.initState evs1).nextId) =
      some (ServerA.postedDevice (ServerA.steps ServerA.initState evs1)
        name type_ caps now) ∧
    mapGet (ServerA.steps (ServerA.postDevice
        (ServerA.steps ServerA.initState evs1) name type_ caps now).1
        evs2).connectedPeers
      (genId (ServerA.steps ServerA.initState evs1).nextId) = none ∧
    ServerA.postedDevice (ServerA.steps ServerA.initState evs1)
        name type_ caps now ∈
      ServerA.snapshotDevices (ServerA.steps (ServerA.postDevice
        (ServerA.steps ServerA.initState evs1) name type_ caps now).1
        evs2) ∧
    (∀ dest p, mapGet (ServerA.steps (ServerA.postDevice
          (ServerA.steps ServerA.initState evs1) name type_ caps now).1
          evs2).connectedPeers dest = some p →
      ServerA.Action.send dest (ServerA.OutMsg.peerUpdate
          (ServerA.snapshotDevices (ServerA.steps (ServerA.postDevice
            (ServerA.steps ServerA.initState evs1) name type_ caps now).1
            evs2))
          (ServerA.steps (ServerA.postDevice
            (ServerA.steps ServerA.initState evs1) name type_ caps now).1
            evs2).connectedPeers.length now3) ∈
        ServerA.broadcastPeerUpdate (ServerA.steps (ServerA.postDevice
          (ServerA.steps ServerA.initState evs1) name type_ caps now).1
          evs2) now3) ∧
    (∀ pid p, mapGet (ServerA.steps (ServerA.postDevice
          (ServerA.steps ServerA.initState evs1) name type_ caps now).1
          evs2).connectedPeers pid = some p →
      ∃ devs, ServerA.handleDiscoveryRequest (ServerA.steps
          (ServerA.postDevice (ServerA.steps ServerA.initState evs1)
            name type_ caps now).1 evs2) pid now3 =
        [ServerA.Action.send pid
          (ServerA.OutMsg.discoveryResponse devs now3)] ∧
        ServerA.postedDevice (ServerA.steps ServerA.initState evs1)
          name type_ caps now ∈ devs) ∧
    mapGet (ServerA.httpDeleteDevice (ServerA.steps (ServerA.postDevice
        (ServerA.steps ServerA.initState evs1) name type_ caps now).1
        evs2)
      (genId (ServerA.steps ServerA.initState evs1).nextId)
      now2).1.deviceInfo
      (genId (ServerA.steps ServerA.initState evs1).nextId) = none := by
  rcases ServerA.invP_steps evs1 ServerA.initState ServerA.invP_init
    ServerA.devMatch_init hv1 with ⟨hI0, -⟩
  rcases ServerA.postDevice_orphan (ServerA.steps ServerA.initState evs1)
    name type_ caps now hI0 hn ht with ⟨hIp, hOp⟩
  rcases ServerA.postDevice_fst (ServerA.steps ServerA.initState evs1)
    name type_ caps now hn ht with ⟨-, hres⟩
  rcases ServerA.orphan_steps evs2 _ _ _ hIp hOp hv2 with ⟨hIN, hON⟩
  have hsnap : ServerA.postedDevice (ServerA.steps ServerA.initState evs1)
      name type_ caps now ∈
      ServerA.snapshotDevices (ServerA.steps (ServerA.postDevice
        (ServerA.steps ServerA.initState evs1) name type_ caps now).1
        evs2) :=
    List.mem_map.mpr ⟨(genId (ServerA.steps ServerA.initState evs1).nextId,
      ServerA.postedDevice (ServerA.steps ServerA.initState evs1)
        name type_ caps now), mapGet_mem _ _ _ hON.stored, rfl⟩
  refine ⟨hres, hOp.noPeer, hOp.noConn, hON.stored, hON.noPeer, hsnap,
    ?_, ?_, ?_⟩
  · intro dest p hp
    exact ServerA.broadcast_mem _ now3 dest p hp (hIN.peersOpen _ _ hp).1
  · intro pid p hp
    have hw : p.wsOpen = true := (hIN.peersOpen _ _ hp).1
    have hne : ServerA.Device.id (ServerA.postedDevice
        (ServerA.steps ServerA.initState evs1) name type_ caps now) ≠
        pid := by
      intro hcc
      have hpid : pid = genId (ServerA.steps ServerA.initState evs1).nextId :=
        hcc.symm
      rw [hpid, hON.noPeer] at hp
      cases hp
    refine ⟨((ServerA.steps (ServerA.postDevice (ServerA.steps
      ServerA.initState evs1) name type_ caps now).1
      evs2).deviceInfo.map (·.2)).filter (fun d => d.id ≠ pid), ?_, ?_⟩
    · simp [ServerA.handleDiscoveryRequest, hp, hw]
    · refine List.mem_filter.mpr ⟨?_, by simp [hne]⟩
      exact List.mem_map.mpr ⟨(genId (ServerA.steps ServerA.initState
        evs1).nextId, ServerA.postedDevice (ServerA.steps ServerA.initState
          evs1) name type_ caps now), mapGet_mem _ _ _ hON.stored, rfl⟩
  · exact ServerA.httpDeleteDevice_removes _ _ now2 _ hON.stored

theorem ServerA.http_device_lifecycle_witness :
    ServerA.validSeq ServerA.initState [(ServerA.Event.connect, 1)] =
      true ∧
    ServerA.truthyStr (some "Printer") = true ∧
    mapGet (ServerA.steps (ServerA.postDevice (ServerA.steps
        ServerA.initState [(ServerA.Event.connect, 1)]) (some "Printer")
        (some "server") none 2).1
        [(ServerA.Event.connect, 3),
         (ServerA.Event.disconnect "device-0", 4)]).deviceInfo
      (genId (ServerA.steps ServerA.initState
        [(ServerA.Event.connect, 1)]).nextId) =
      some (ServerA.postedDevice (ServerA.steps ServerA.initState
        [(ServerA.Event.connect, 1)]) (some "Printer") (some "server")
        none 2) :=
  ⟨by decide, by decide,
   (ServerA.http_device_lifecycle [(ServerA.Event.connect, 1)]
     (some "Printer") (some "server") none 2
     [(ServerA.Event.connect, 3),
      (ServerA.Event.disconnect "device-0", 4)] 9 10
     (by decide) (by decide) (by decide) (by decide)).2.2.2.1⟩

/-! ### More association-list lemmas (shared by the sweep and the
client-keyed registration claims) -/

theorem mapDelete_eq_filter {α : Type} (m : List (String × α))
    (k : String) : mapDelete m k = m.filter (fun p => decide (p.1 ≠ k)) := by
  induction m with
  | nil => rfl
  | cons p r ih =>
    by_cases h : p.1 = k <;> simp [mapDelete, h, ih]

theorem keysNodup_filter {α : Type} (m : List (String × α))
    (pred : String × α → Bool) (h : keysNodup m) :
    keysNodup (m.filter pred) := by
  unfold keysNodup mapKeys at h ⊢
  exact (List.Sublist.map (fun p => p.1) (List.filter_sublist m)).nodup h

theorem foldl_mapDelete_eq_filter {α : Type} (ids : List String)
    (m : List (String × α)) :
    ids.foldl (fun acc i => mapDelete acc i) m =
      m.filter (fun p => decide (p.1 ∉ ids)) := by
  induction ids generalizing m with
  | nil => simp
  | cons i r ih =>
    show r.foldl (fun acc i => mapDelete acc i) (mapDelete m i) = _
    rw [ih (mapDelete m i), mapDelete_eq_filter, List.filter_filter]
    apply List.filter_congr
    intro p _
    by_cases h1 : p.1 = i <;> by_cases h2 : p.1 ∈ r <;> simp [h1, h2]

theorem mapGet_filter_none {α : Type} (m : List (String × α))
    (pred : String × α → Bool) (k : String) (v : α) (hnd : keysNodup m)
    (h : mapGet m k = some v) (hp : pred (k, v) = false) :
    mapGet (m.filter pred) k = none := by
  rw [mapGet_eq_none_iff]
  intro hk
  rcases List.mem_map.mp hk with ⟨q, hq, hq1⟩
  rcases List.mem_filter.mp hq with ⟨hqm, hqp⟩
  have hg : mapGet m q.1 = some q.2 :=
    mem_mapGet _ _ _ hnd (by simpa using hqm)
  rw [hq1, h] at hg
  injection hg with hg
  have : q = (k, v) := by
    rw [Prod.ext_iff]
    exact ⟨hq1, hg.symm⟩
  rw [this, hp] at hqp
  cases hqp

theorem mapGet_filter_some {α : Type} (m : List (String × α))
    (pred : String × α → Bool) (k : String) (v : α) (hnd : keysNodup m)
    (h : mapGet m k = some v) (hp : pred (k, v) = true) :
    mapGet (m.filter pred) k = some v :=
  mem_mapGet _ _ _ (keysNodup_filter m pred hnd)
    (List.mem_filter.mpr ⟨mapGet_mem _ _ _ h, hp⟩)

theorem length_set_mem {α : Type} (m : List (String × α)) (k : String)
    (v : α) (h : k ∈ mapKeys m) : (mapSet m k v).length = m.length := by
  induction m with
  | nil => simp [mapKeys] at h
  | cons p r ih =>
    by_cases hp : p.1 = k
    · simp [mapSet, hp]
    · rw [mapKeys_cons, List.mem_cons] at h
      rcases h with h | h
      · exact absurd h.symm hp
      · simp [mapSet, hp, ih h]

theorem count_key_set {α : Type} (m : List (String × α)) (k : String)
    (v : α) (hnd : keysNodup m) :
    ((mapSet m k v).filter (fun p => decide (p.1 = k))).length = 1 := by
  induction m with
  | nil => simp [mapSet]
  | cons p r ih =>
    rw [keysNodup, mapKeys_cons, List.nodup_cons] at hnd
    by_cases hp : p.1 = k
    · have hr : r.filter (fun p => decide (p.1 = k)) = [] := by
        rw [List.filter_eq_nil_iff]
        intro q hq
        simp only [decide_eq_true_eq]
        intro hqk
        exact hnd.1 (List.mem_map.mpr ⟨q, hq, hqk.trans hp.symm⟩)
      simp [mapSet, hp, hr]
    · simp [mapSet, hp, ih hnd.2]

/-! ## `ServerB` — the unified server of `src/unnamed/part_000`

State: the module-level `connectedDevices` map (keyed by the
client-supplied device id), the `discoveryClients` map of the UDP beacon,
and `DEVICE_TIMEOUT = 30000` ms.  WebSocket handles are `Nat` connection
identifiers (several connections may race on one device id);
`ws.deviceId`, the per-socket property set at registration, is passed to
the handlers that read it as an `Option String`. -/

namespace ServerB

def DEVICE_TIMEOUT : Nat := 30000

/-- One `connectedDevices` entry. -/
structure DeviceRec where
  id : String
  name : String
  type : String
  capabilities : List String
  ws : Nat
  connectedAt : Nat
  lastHeartbeat : Nat
  deriving DecidableEq

abbrev DeviceMap := List (String × DeviceRec)

/-- Entry of a `device-list` broadcast. -/
structure DeviceSummary where
  id : String
  name : String
  type : String
  capabilities : List String
  connectedAt : Nat
  deriving DecidableEq

inductive Msg where
  | registrationConfirmed (deviceId : String) (timestamp : Nat)
  | deviceList (devices : List DeviceSummary) (timestamp : Nat)
  | heartbeatAck (timestamp : Nat)
  | errorMsg (message : String)
  deriving DecidableEq

/-- An observable effect of a handler, in program order. -/
inductive Act where
  | send (ws : Nat) (msg : Msg)
  | broadcast (msg : Msg)
  | closeWs (ws : Nat) (code : Nat) (reason : String)
  deriving DecidableEq

def deviceSummary (d : DeviceRec) : DeviceSummary :=
  { id := d.id, name := d.name, type := d.type,
    capabilities := d.capabilities, connectedAt := d.connectedAt }

/-- `broadcastDeviceList`: one identical `device-list` to every open
client. -/
def broadcastDeviceList (devs : DeviceMap) (now : Nat) : Act :=
  Act.broadcast (Msg.deviceList (devs.map (fun p => deviceSummary p.2)) now)

/-- A `register` message, at the types the code expects of its fields. -/
structure RegisterMsg where
  deviceId : Option String
  name : Option String
  deviceType : Option String
  capabilities : Option (List String)
  deriving DecidableEq

/-- `` message.deviceId || `device-${Date.now()}` ``: the registry key is
the client-supplied id, defaulting to a timestamp-derived one. -/
def registrationDeviceId (m : RegisterMsg) (now : Nat) : String :=
  jsOrStr m.deviceId ("device-" ++ natStr now)

/-- The `deviceInfo` record built by `handleDeviceRegistration`. -/
def registeredDevice (m : RegisterMsg) (ws : Nat) (now : Nat) : DeviceRec :=
  { id := registrationDeviceId m now
    name := jsOrStr m.name (registrationDeviceId m now)
    type := jsOrStr m.deviceType "client"
    capabilities := m.capabilities.getD []
    ws := ws
    connectedAt := now
    lastHeartbeat := now }

/-- `handleDeviceRegistration`: store (or replace) the entry under the
client-supplied key, confirm to the registering socket, broadcast the
device list.  The returned string is the `ws.deviceId` binding it sets. -/
def handleDeviceRegistration (devs : DeviceMap) (m : RegisterMsg)
    (ws : Nat) (now : Nat) : DeviceMap × List Act :=
  let deviceId := registrationDeviceId m now
  let devs' := mapSet devs deviceId (registeredDevice m ws now)
  (devs', [Act.send ws (Msg.registrationConfirmed deviceId now),
    broadcastDeviceList devs' now])

/-- `handleHeartbeat`: refresh `lastHeartbeat` and acknowledge when the
socket's `deviceId` still has an entry; otherwise do nothing at all. -/
def handleHeartbeat (devs : DeviceMap) (ws : Nat)
    (wsDeviceId : Option String) (now : Nat) : DeviceMap × List Act :=
  match wsDeviceId with
  | some deviceId =>
    match mapGet devs deviceId with
    | some device =>
      (mapSet devs deviceId { device with lastHeartbeat := now },
       [Act.send ws (Msg.heartbeatAck now)])
    | none => (devs, [])
  | none => (devs, [])

/-- `now - device.lastHeartbeat > DEVICE_TIMEOUT` (truncated subtraction
agrees with the JS comparison, which is false for a future heartbeat). -/
def isStale (now : Nat) (d : DeviceRec) : Bool :=
  now - d.lastHeartbeat > DEVICE_TIMEOUT

/-- Body of the eviction loop: look the id up, close its socket, delete
the entry. -/
def sweepStep (acc : DeviceMap × List Act) (deviceId : String) :
    DeviceMap × List Act :=
  match mapGet acc.1 deviceId with
  | some device =>
    (mapDelete acc.1 deviceId,
     acc.2 ++ [Act.closeWs device.ws 1000 "Device timeout"])
  | none => (mapDelete acc.1 deviceId, acc.2)

/-- The stale-device sweep (`setInterval`, lines 420–442): collect the ids
whose heartbeat is older than the timeout, evict each, then broadcast once
if the batch was non-empty. -/
def sweepStaleDevices (devs : DeviceMap) (now : Nat) :
    DeviceMap × List Act :=
  let staleDevices := (devs.filter (fun p => isStale now p.2)).map (·.1)
  let afterRemoval := staleDevices.foldl sweepStep (devs, [])
  if staleDevices.length > 0 then
    (afterRemoval.1,
     afterRemoval.2 ++ [broadcastDeviceList afterRemoval.1 now])
  else afterRemoval

def isBroadcast (a : Act) : Bool :=
  match a with
  | .broadcast _ => true
  | _ => false

/-- The UDP beacon's picture of an announced device
(`data.device` of a `device-announce` datagram). -/
structure AnnDevice where
  id : String
  name : String
  address : String
  port : Nat
  type : String
  capabilities : List String
  timestamp : Nat
  deriving DecidableEq

/-- `{...data.device, lastSeen: Date.now(), address: rinfo.address}` — the
announced fields with `lastSeen` and `address` overwritten last. -/
structure DiscoveryRecord where
  id : String
  name : String
  port : Nat
  type : String
  capabilities : List String
  timestamp : Nat
  lastSeen : Nat
  address : String
  deriving DecidableEq

abbrev DiscoveryMap := List (String × DiscoveryRecord)

def announceRecord (dev : AnnDevice) (srcAddress : String) (now : Nat) :
    DiscoveryRecord :=
  { id := dev.id, name := dev.name, port := dev.port, type := dev.type,
    capabilities := dev.capabilities, timestamp := dev.timestamp,
    lastSeen := now, address := srcAddress }

/-- The `device-announce` arm of `handleDiscoveryMessage`: upsert keyed by
the announced id, with the packet's source address. -/
def handleDeviceAnnounce (clients : DiscoveryMap) (dev : AnnDevice)
    (srcAddress : String) (now : Nat) : DiscoveryMap :=
  mapSet clients dev.id (announceRecord dev srcAddress now)

/-- The discovery-client sweep (`setInterval`, lines 445–459): collect ids
silent past the timeout, then delete each. -/
def sweepDiscoveryClients (clients : DiscoveryMap) (now : Nat) :
    DiscoveryMap :=
  let staleClients :=
    (clients.filter (fun p => now - p.2.lastSeen > DEVICE_TIMEOUT)).map (·.1)
  staleClients.foldl (fun acc clientId => mapDelete acc clientId) clients

end ServerB

namespace ServerB

theorem sweepStep_foldl_fst (ids : List String) (devs : DeviceMap)
    (acc : List Act) :
    (ids.foldl sweepStep (devs, acc)).1 =
      ids.foldl (fun m i => mapDelete m i) devs := by
  induction ids generalizing devs acc with
  | nil => rfl
  | cons i r ih =>
    show (r.foldl sweepStep (sweepStep (devs, acc) i)).1 = _
    cases h : mapGet devs i with
    | none => simpa [sweepStep, h] using ih (mapDelete devs i) acc
    | some device =>
      simpa [sweepStep, h] using ih (mapDelete devs i)
        (acc ++ [Act.closeWs device.ws 1000 "Device timeout"])

theorem sweepStep_foldl_acts (es : List (String × DeviceRec))
    (devs : DeviceMap) (acc : List Act) (hnd : (es.map (·.1)).Nodup)
    (hsub : ∀ q ∈ es, mapGet devs q.1 = some q.2) :
    ((es.map (·.1)).foldl sweepStep (devs, acc)).2 =
      acc ++ es.map (fun q => Act.closeWs q.2.ws 1000 "Device timeout") := by
  induction es generalizing devs acc with
  | nil => simp
  | cons q es' ih =>
    rw [List.map_cons, List.nodup_cons] at hnd
    have hq : mapGet devs q.1 = some q.2 := hsub q (List.mem_cons_self _ _)
    have hsub' : ∀ r ∈ es', mapGet (mapDelete devs q.1) r.1 = some r.2 := by
      intro r hr
      have hne : r.1 ≠ q.1 := by
        intro hcc
        exact hnd.1 (hcc ▸ List.mem_map.mpr ⟨r, hr, rfl⟩)
      rw [mapGet_delete_ne _ _ _ hne]
      exact hsub r (List.mem_cons_of_mem _ hr)
    show ((es'.map (·.1)).foldl sweepStep (sweepStep (devs, acc) q.1)).2 = _
    rw [show sweepStep (devs, acc) q.1 = (mapDelete devs q.1,
      acc ++ [Act.closeWs q.2.ws 1000 "Device timeout"]) by
        simp [sweepStep, hq]]
    rw [ih (mapDelete devs q.1) _ hnd.2 hsub']
    simp

/-- Characterization of one sweep tick: the surviving map is exactly the
non-stale entries, and the effects are one close per stale entry followed
(iff the batch is non-empty) by a single broadcast of the post-sweep
list. -/
theorem sweepStaleDevices_spec (devs : DeviceMap) (now : Nat)
    (hnd : keysNodup devs) :
    sweepStaleDevices devs now =
      (devs.filter (fun p => !isStale now p.2),
       (devs.filter (fun p => isStale now p.2)).map
         (fun q => Act.closeWs q.2.ws 1000 "Device timeout") ++
       (if (devs.filter (fun p => isStale now p.2)).length > 0 then
          [broadcastDeviceList (devs.filter (fun p => !isStale now p.2))
            now]
        else [])) := by
  have hidsnd : (((devs.filter (fun p => isStale now p.2)).map
      (·.1))).Nodup :=
    (List.Sublist.map _ (List.filter_sublist devs)).nodup hnd
  have hsub : ∀ q ∈ devs.filter (fun p => isStale now p.2),
      mapGet devs q.1 = some q.2 := by
    intro q hq
    exact mem_mapGet _ _ _ hnd (by
      have := (List.mem_filter.mp hq).1
      simpa using this)
  have hfst : ((devs.filter (fun p => isStale now p.2)).map (·.1)).foldl
      (fun m i => mapDelete m i) devs =
      devs.filter (fun p => !isStale now p.2) := by
    rw [foldl_mapDelete_eq_filter]
    apply List.filter_congr
    intro p hp
    by_cases hs : isStale now p.2
    · have hm : p.1 ∈ (devs.filter (fun p => isStale now p.2)).map (·.1) :=
        List.mem_map.mpr ⟨p, List.mem_filter.mpr ⟨hp, by simpa using hs⟩,
          rfl⟩
      simp [hm, hs]
    · have hm : p.1 ∉ (devs.filter (fun p => isStale now p.2)).map (·.1) := by
        intro hc
        rcases List.mem_map.mp hc with ⟨q, hq, hq1⟩
        rcases List.mem_filter.mp hq with ⟨hqm, hqs⟩
        have h1 : mapGet devs q.1 = some q.2 :=
          mem_mapGet _ _ _ hnd (by simpa using hqm)
        have h2 : mapGet devs q.1 = some p.2 := by
          rw [hq1]
          exact mem_mapGet _ _ _ hnd (by simpa using hp)
        rw [h2] at h1
        injection h1 with h1
        rw [h1] at hs
        exact hs (by simpa using hqs)
      simp [hm, hs]
  have hacts := sweepStep_foldl_acts (devs.filter (fun p => isStale now p.2))
    devs [] hidsnd hsub
  unfold sweepStaleDevices
  rw [Prod.ext_iff]
  by_cases hlen : ((devs.filter (fun p => isStale now p.2)).map
      (·.1)).length > 0
  · have hlen' : (devs.filter (fun p => isStale now p.2)).length > 0 := by
      simpa using hlen
    simp only [hlen, hlen', if_pos]
    constructor
    · rw [sweepStep_foldl_fst, hfst]
    · rw [hacts, sweepStep_foldl_fst, hfst]
      simp
  · have hlen' : ¬ ((devs.filter (fun p => isStale now p.2)).length > 0) := by
      simpa using hlen
    simp only [hlen, hlen', if_neg, not_false_iff]
    constructor
    · rw [sweepStep_foldl_fst, hfst]
    · rw [hacts]
      simp

end ServerB

/-- Claim C4: on a sweep tick every device whose `now - lastHeartbeat`
exceeds the timeout is closed (`1000, "Device timeout"`) and removed — so
absent from the post-sweep registry that the following broadcast
serializes, regardless of its earlier heartbeats — while the fresh
entries survive untouched; and exactly one fan-out follows the whole
sweep when the eviction batch is non-empty, none when it is empty. -/
theorem ServerB.stale_sweep_evicts (devs : ServerB.DeviceMap) (now : Nat)
    (hnd : keysNodup devs) :
    (∀ deviceId d, mapGet devs deviceId = some d →
      now - d.lastHeartbeat > ServerB.DEVICE_TIMEOUT →
      mapGet (ServerB.sweepStaleDevices devs now).1 deviceId = none ∧
      ServerB.Act.closeWs d.ws 1000 "Device timeout" ∈
        (ServerB.sweepStaleDevices devs now).2) ∧
    (∀ deviceId d, mapGet devs deviceId = some d →
      ¬ (now - d.lastHeartbeat > ServerB.DEVICE_TIMEOUT) →
      mapGet (ServerB.sweepStaleDevices devs now).1 deviceId = some d) ∧
    ((ServerB.sweepStaleDevices devs now).2.filter
        ServerB.isBroadcast).length =
      (if devs.any (fun p => ServerB.isStale now p.2) then 1 else 0) ∧
    (devs.any (fun p => ServerB.isStale now p.2) = true →
      ∃ closes, (ServerB.sweepStaleDevices devs now).2 =
        closes ++ [ServerB.broadcastDeviceList
          (ServerB.sweepStaleDevices devs now).1 now] ∧
        ∀ a ∈ closes, ServerB.isBroadcast a = false) := by
  have hspec := ServerB.sweepStaleDevices_spec devs now hnd
  have hclosesF : ∀ a ∈ (devs.filter
      (fun p => ServerB.isStale now p.2)).map
      (fun q => ServerB.Act.closeWs q.2.ws 1000 "Device timeout"),
      ServerB.isBroadcast a = false := by
    intro a ha
    rcases List.mem_map.mp ha with ⟨q, _, hq⟩
    rw [← hq]
    rfl
  have hiff : ((devs.filter (fun p => ServerB.isStale now p.2)).length > 0)
      ↔ devs.any (fun p => ServerB.isStale now p.2) = true := by
    constructor
    · intro h
      rcases List.exists_mem_of_length_pos h with ⟨q, hq⟩
      rcases List.mem_filter.mp hq with ⟨hm, hs⟩
      exact List.any_eq_true.mpr ⟨q, hm, hs⟩
    · intro h
      rcases List.any_eq_true.mp h with ⟨q, hm, hs⟩
      exact List.length_pos.mpr
        (List.ne_nil_of_mem (List.mem_filter.mpr ⟨hm, hs⟩))
  have hfilterB : ((devs.filter (fun p => ServerB.isStale now p.2)).map
      (fun q => ServerB.Act.closeWs q.2.ws 1000 "Device timeout")).filter
      ServerB.isBroadcast = [] := by
    rw [List.filter_eq_nil_iff]
    intro a ha
    rw [hclosesF a ha]
    simp
  refine ⟨?_, ?_, ?_, ?_⟩
  · intro deviceId d hget hstale
    have hsB : ServerB.isStale now d = true := by
      unfold ServerB.isStale
      exact decide_eq_true hstale
    constructor
    · rw [hspec]
      exact mapGet_filter_none devs _ deviceId d hnd hget (by simp [hsB])
    · rw [hspec]
      apply List.mem_append.mpr
      left
      exact List.mem_map.mpr ⟨(deviceId, d),
        List.mem_filter.mpr ⟨mapGet_mem _ _ _ hget, hsB⟩, rfl⟩
  · intro deviceId d hget hfresh
    have hsB : ServerB.isStale now d = false := by
      unfold ServerB.isStale
      exact decide_eq_false hfresh
    rw [hspec]
    exact mapGet_filter_some devs _ deviceId d hnd hget (by simp [hsB])
  · rw [hspec]
    by_cases hany : devs.any (fun p => ServerB.isStale now p.2) = true
    · rw [if_pos hany]
      have hlen := hiff.mpr hany
      simp only [hlen, if_pos, gt_iff_lt]
      rw [List.filter_append, hfilterB]
      rfl
    · rw [if_neg hany]
      have hlen : ¬ ((devs.filter (fun p => ServerB.isStale now
          p.2)).length > 0) := fun hc => hany (hiff.mp hc)
      simp only [hlen, if_neg, not_false_iff, gt_iff_lt]
      rw [List.filter_append, hfilterB]
      rfl
  · intro hany
    rw [hspec]
    refine ⟨_, ?_, hclosesF⟩
    rw [if_pos (hiff.mpr hany)]

/-- Concrete sweep input: `a` is 100 s silent, `b` heartbeated 10 s ago. -/
def ServerB.devsSweep : ServerB.DeviceMap :=
  [("a", { id := "a", name := "A", type := "client", capabilities := []
           ws := 1, connectedAt := 0, lastHeartbeat := 0 }),
   ("b", { id := "b", name := "B", type := "client", capabilities := []
           ws := 2, connectedAt := 0, lastHeartbeat := 90000 })]

theorem ServerB.stale_sweep_evicts_witness :
    keysNodup ServerB.devsSweep ∧
    mapGet (ServerB.sweepStaleDevices ServerB.devsSweep 100000).1 "a" =
      none ∧
    mapGet (ServerB.sweepStaleDevices ServerB.devsSweep 100000).1 "b" =
      some { id := "b", name := "B", type := "client", capabilities := []
             ws := 2, connectedAt := 0, lastHeartbeat := 90000 } :=
  ⟨by decide,
   ((ServerB.stale_sweep_evicts ServerB.devsSweep 100000 (by decide)).1
     "a" { id := "a", name := "A", type := "client", capabilities := []
           ws := 1, connectedAt := 0, lastHeartbeat := 0 }
     (by decide) (by decide)).1,
   (ServerB.stale_sweep_evicts ServerB.devsSweep 100000 (by decide)).2.1
     "b" { id := "b", name := "B", type := "client", capabilities := []
           ws := 2, connectedAt := 0, lastHeartbeat := 90000 }
     (by decide) (by decide)⟩

/-- Claim C5: a heartbeat from a socket whose `deviceId` still has a
registry entry refreshes that entry's `lastHeartbeat` (touching nothing
else) and is answered with a timestamped `heartbeat-ack`; a heartbeat
whose issuer has no entry (or an unregistered socket) is silently
ignored: no reply, no state change. -/
theorem ServerB.heartbeat_ack_or_ignore (devs : ServerB.DeviceMap)
    (ws : Nat) (wsDeviceId : Option String) (now : Nat) :
    (∀ deviceId device, wsDeviceId = some deviceId →
      mapGet devs deviceId = some device →
      ServerB.handleHeartbeat devs ws wsDeviceId now =
        (mapSet devs deviceId { device with lastHeartbeat := now },
         [ServerB.Act.send ws (ServerB.Msg.heartbeatAck now)]) ∧
      mapGet (ServerB.handleHeartbeat devs ws wsDeviceId now).1 deviceId =
        some { device with lastHeartbeat := now } ∧
      (∀ k, k ≠ deviceId →
        mapGet (ServerB.handleHeartbeat devs ws wsDeviceId now).1 k =
          mapGet devs k)) ∧
    (∀ deviceId, wsDeviceId = some deviceId →
      mapGet devs deviceId = none →
      ServerB.handleHeartbeat devs ws wsDeviceId now = (devs, [])) ∧
    (wsDeviceId = none →
      ServerB.handleHeartbeat devs ws wsDeviceId now = (devs, [])) := by
  refine ⟨?_, ?_, ?_⟩
  · intro deviceId device h1 h2
    subst h1
    refine ⟨by simp [ServerB.handleHeartbeat, h2], ?_, ?_⟩
    · simp [ServerB.handleHeartbeat, h2, mapGet_set_self]
    · intro k hk
      simp [ServerB.handleHeartbeat, h2, mapGet_set_ne _ _ _ _ hk]
  · intro deviceId h1 h2
    subst h1
    simp [ServerB.handleHeartbeat, h2]
  · intro h1
    subst h1
    rfl

/-- Registry for the heartbeat witness. -/
def ServerB.devsHb : ServerB.DeviceMap :=
  [("d1", { id := "d1", name := "D1", type := "client", capabilities := []
            ws := 7, connectedAt := 0, lastHeartbeat := 5 })]

theorem ServerB.heartbeat_ack_or_ignore_witness :
    ServerB.handleHeartbeat ServerB.devsHb 7 (some "d1") 100 =
      (mapSet ServerB.devsHb "d1"
        { id := "d1", name := "D1", type := "client", capabilities := []
          ws := 7, connectedAt := 0, lastHeartbeat := 100 },
       [ServerB.Act.send 7 (ServerB.Msg.heartbeatAck 100)]) ∧
    ServerB.handleHeartbeat ServerB.devsHb 7 (some "ghost") 100 =
      (ServerB.devsHb, []) :=
  ⟨by
    have h := ((ServerB.heartbeat_ack_or_ignore ServerB.devsHb 7
      (some "d1") 100).1 "d1"
      { id := "d1", name := "D1", type := "client", capabilities := []
        ws := 7, connectedAt := 0, lastHeartbeat := 5 } rfl
      (by decide)).1
    simpa using h,
   (ServerB.heartbeat_ack_or_ignore ServerB.devsHb 7 (some "ghost")
     100).2.1 "ghost" rfl (by decide)⟩

theorem ServerB.sweepDiscoveryClients_eq_filter
    (clients : ServerB.DiscoveryMap) (now : Nat) :
    ServerB.sweepDiscoveryClients clients now =
      clients.filter (fun p => decide (p.1 ∉
        ((clients.filter (fun p =>
          decide (now - p.2.lastSeen > ServerB.DEVICE_TIMEOUT))).map
          (fun x => x.1)))) := by
  unfold ServerB.sweepDiscoveryClients
  exact foldl_mapDelete_eq_filter _ _

/-- Claim C7: two `device-announce` datagrams carrying the same id, the
second arriving from a different source address before the discovery
timeout prunes the first record (one prune tick in between is allowed),
leave exactly one `DiscoveryRecord` keyed by the announced id — the
second packet's source address and a refreshed `lastSeen` — never two. -/
theorem ServerB.device_announce_single_record
    (clients : ServerB.DiscoveryMap) (dev1 dev2 : ServerB.AnnDevice)
    (a1 a2 : String) (t1 tp t2 : Nat) (hnd : keysNodup clients)
    (hid : dev1.id = dev2.id) (haddr : a1 ≠ a2)
    (hwithin : tp - t1 ≤ ServerB.DEVICE_TIMEOUT) :
    mapGet (ServerB.handleDeviceAnnounce (ServerB.sweepDiscoveryClients
        (ServerB.handleDeviceAnnounce clients dev1 a1 t1) tp) dev2 a2 t2)
      dev2.id = some (ServerB.announceRecord dev2 a2 t2) ∧
    ((ServerB.handleDeviceAnnounce (ServerB.sweepDiscoveryClients
        (ServerB.handleDeviceAnnounce clients dev1 a1 t1) tp) dev2 a2
        t2).filter (fun p => decide (p.1 = dev2.id))).length = 1 ∧
    (ServerB.handleDeviceAnnounce (ServerB.sweepDiscoveryClients
        (ServerB.handleDeviceAnnounce clients dev1 a1 t1) tp) dev2 a2
        t2).length = (ServerB.sweepDiscoveryClients
        (ServerB.handleDeviceAnnounce clients dev1 a1 t1) tp).length ∧
    (ServerB.announceRecord dev2 a2 t2).address = a2 ∧
    (ServerB.announceRecord dev2 a2 t2).lastSeen = t2 := by
  have hnd1 : keysNodup (ServerB.handleDeviceAnnounce clients dev1 a1 t1) :=
    keysNodup_set _ _ _ hnd
  have hrec1 : mapGet (ServerB.handleDeviceAnnounce clients dev1 a1 t1)
      dev1.id = some (ServerB.announceRecord dev1 a1 t1) :=
    mapGet_set_self _ _ _
  have hnotstale : dev1.id ∉
      (((ServerB.handleDeviceAnnounce clients dev1 a1 t1).filter (fun p =>
        decide (tp - p.2.lastSeen > ServerB.DEVICE_TIMEOUT))).map
        (fun x => x.1)) := by
    intro hc
    rcases List.mem_map.mp hc with ⟨q, hq, hq1⟩
    rcases List.mem_filter.mp hq with ⟨hqm, hqs⟩
    have hg : mapGet (ServerB.handleDeviceAnnounce clients dev1 a1 t1) q.1
        = some q.2 := mem_mapGet _ _ _ hnd1 hqm
    rw [hq1, hrec1] at hg
    injection hg with hg
    rw [← hg] at hqs
    have : ServerB.DEVICE_TIMEOUT < tp - t1 := of_decide_eq_true hqs
    omega
  have hkept : mapGet (ServerB.sweepDiscoveryClients
      (ServerB.handleDeviceAnnounce clients dev1 a1 t1) tp) dev1.id =
      some (ServerB.announceRecord dev1 a1 t1) := by
    rw [ServerB.sweepDiscoveryClients_eq_filter]
    exact mapGet_filter_some _ _ _ _ hnd1 hrec1 (decide_eq_true hnotstale)
  have hnd2 : keysNodup (ServerB.sweepDiscoveryClients
      (ServerB.handleDeviceAnnounce clients dev1 a1 t1) tp) := by
    rw [ServerB.sweepDiscoveryClients_eq_filter]
    exact keysNodup_filter _ _ hnd1
  have hmem2 : dev2.id ∈ mapKeys (ServerB.sweepDiscoveryClients
      (ServerB.handleDeviceAnnounce clients dev1 a1 t1) tp) := by
    rw [← hid, ← mapGet_isSome_iff, hkept]
    rfl
  exact ⟨mapGet_set_self _ _ _, count_key_set _ _ _ hnd2,
    length_set_mem _ _ _ hmem2, rfl, rfl⟩

/-- The two announced devices of the discovery witness. -/
def ServerB.annX1 : ServerB.AnnDevice :=
  { id := "x", name := "X", address := "self", port := 4000
    type := "client", capabilities := [], timestamp := 100 }

def ServerB.annX2 : ServerB.AnnDevice :=
  { id := "x", name := "X", address := "self", port := 4000
    type := "client", capabilities := [], timestamp := 300 }

theorem ServerB.device_announce_single_record_witness :
    mapGet (ServerB.handleDeviceAnnounce (ServerB.sweepDiscoveryClients
        (ServerB.handleDeviceAnnounce [] ServerB.annX1 "10.0.0.1" 100)
        200) ServerB.annX2 "10.0.0.2" 300) "x" =
      some (ServerB.announceRecord ServerB.annX2 "10.0.0.2" 300) ∧
    ((ServerB.handleDeviceAnnounce (ServerB.sweepDiscoveryClients
        (ServerB.handleDeviceAnnounce [] ServerB.annX1 "10.0.0.1" 100)
        200) ServerB.annX2 "10.0.0.2" 300).filter
      (fun p => decide (p.1 = "x"))).length = 1 :=
  ⟨(ServerB.device_announce_single_record [] ServerB.annX1 ServerB.annX2
     "10.0.0.1" "10.0.0.2" 100 200 300 (by decide) rfl (by decide)
     (by decide)).1,
   (ServerB.device_announce_single_record [] ServerB.annX1 ServerB.annX2
     "10.0.0.1" "10.0.0.2" 100 200 300 (by decide) rfl (by decide)
     (by decide)).2.1⟩

/-- Claim C10: the registration path of the second variant keys the
registry by the client-supplied `deviceId` (a timestamp-derived id when
absent); a later `register` with the same `deviceId` — from the same or a
different connection — replaces the earlier entry in place, so at most one
entry per `deviceId` exists, and the superseded connection is told
nothing: the only effects are the confirmation to the registering socket
and the ordinary broadcast. -/
theorem ServerB.register_same_id_replaces (devs : ServerB.DeviceMap)
    (m1 m2 : ServerB.RegisterMsg) (ws1 ws2 : Nat) (t1 t2 : Nat)
    (hnd : keysNodup devs)
    (hkey : ServerB.registrationDeviceId m1 t1 =
      ServerB.registrationDeviceId m2 t2) :
    (∀ s, m2.deviceId = some s → s ≠ "" →
      ServerB.registrationDeviceId m2 t2 = s) ∧
    (m2.deviceId = none →
      ServerB.registrationDeviceId m2 t2 = "device-" ++ natStr t2) ∧
    mapGet (ServerB.handleDeviceRegistration
        (ServerB.handleDeviceRegistration devs m1 ws1 t1).1 m2 ws2 t2).1
      (ServerB.registrationDeviceId m2 t2) =
      some (ServerB.registeredDevice m2 ws2 t2) ∧
    ((ServerB.handleDeviceRegistration
        (ServerB.handleDeviceRegistration devs m1 ws1 t1).1 m2 ws2
        t2).1.filter
      (fun p => decide (p.1 = ServerB.registrationDeviceId m2 t2))).length
      = 1 ∧
    (ServerB.handleDeviceRegistration
        (ServerB.handleDeviceRegistration devs m1 ws1 t1).1 m2 ws2
        t2).1.length =
      (ServerB.handleDeviceRegistration devs m1 ws1 t1).1.length ∧
    (ServerB.handleDeviceRegistration
        (ServerB.handleDeviceRegistration devs m1 ws1 t1).1 m2 ws2 t2).2 =
      [ServerB.Act.send ws2 (ServerB.Msg.registrationConfirmed
        (ServerB.registrationDeviceId m2 t2) t2),
       ServerB.broadcastDeviceList (ServerB.handleDeviceRegistration
         (ServerB.handleDeviceRegistration devs m1 ws1 t1).1 m2 ws2 t2).1
         t2] := by
  have hnd1 : keysNodup (ServerB.handleDeviceRegistration devs m1 ws1
      t1).1 := keysNodup_set _ _ _ hnd
  have hmem : ServerB.registrationDeviceId m2 t2 ∈
      mapKeys (ServerB.handleDeviceRegistration devs m1 ws1 t1).1 := by
    rw [← hkey]
    exact (mapKeys_set_mem _ _ _ _).mpr (Or.inr rfl)
  refine ⟨?_, ?_, mapGet_set_self _ _ _, count_key_set _ _ _ hnd1,
    length_set_mem _ _ _ hmem, rfl⟩
  · intro s h1 h2
    unfold ServerB.registrationDeviceId jsOrStr
    rw [h1]
    simp [h2]
  · intro h1
    unfold ServerB.registrationDeviceId jsOrStr
    rw [h1]

/-- The two registrations of the C10 witness share `deviceId = "shared"`
but come from distinct connections. -/
def ServerB.regMsg1 : ServerB.RegisterMsg :=
  { deviceId := some "shared", name := some "First", deviceType := none
    capabilities := none }

def ServerB.regMsg2 : ServerB.RegisterMsg :=
  { deviceId := some "shared", name := some "Second"
    deviceType := some "server", capabilities := some ["webrtc"] }

theorem ServerB.register_same_id_replaces_witness :
    mapGet (ServerB.handleDeviceRegistration
        (ServerB.handleDeviceRegistration [] ServerB.regMsg1 1 10).1
        ServerB.regMsg2 2 20).1 "shared" =
      some (ServerB.registeredDevice ServerB.regMsg2 2 20) ∧
    ((ServerB.handleDeviceRegistration
        (ServerB.handleDeviceRegistration [] ServerB.regMsg1 1 10).1
        ServerB.regMsg2 2 20).1.filter
      (fun p => decide (p.1 = "shared"))).length = 1 :=
  ⟨(ServerB.register_same_id_replaces [] ServerB.regMsg1 ServerB.regMsg2
     1 2 10 20 (by decide) rfl).2.2.1,
   (ServerB.register_same_id_replaces [] ServerB.regMsg1 ServerB.regMsg2
     1 2 10 20 (by decide) rfl).2.2.2.1⟩
